import Mathlib

/-
Verification of the BuildingsPy simulator wrappers
(`buildingspy/simulate/base_simulator.py`, `Dymola.py`, `Optimica.py`).

The Python code is shallowly embedded: pure string manipulation is
translated to Lean functions over `String` / `List Char`, the
`_simulator_` settings dictionary to an association list, and the
effectful body of `simulate()` to a function producing a trace of
abstract filesystem / process actions together with an `Except` value
modelling the Python exception, if any, escaping the call.
-/

namespace BuildingsPy

/-- Python exception classes that the modelled code can raise. -/
inductive PyExc where
  | typeError
  | ioError
  | osError
  | attributeError
  | valueError
  deriving DecidableEq

/-- A value stored in the `_simulator_` settings dictionary.  The Python
dictionary maps string keys to ints, floats or strings; floats are modelled
as rationals. -/
inductive SimVal where
  | intV (n : Int)
  | floatV (q : ℚ)
  | strV (s : String)
  deriving DecidableEq

/-- The `_simulator_` dictionary: an insertion-ordered association list with
unique keys, as a Python `dict` is. -/
abbrev SimDict : Type := List (String × SimVal)

/-- `d.update(k=v)` on a Python dict: replace in place if the key is present,
otherwise append at the end (Python dicts preserve insertion order). -/
def dictUpdate (d : SimDict) (k : String) (v : SimVal) : SimDict :=
  if d.any (fun p => p.1 == k) then
    d.map (fun p => if p.1 == k then (k, v) else p)
  else
    d ++ [(k, v)]

/-- `d.get(k)` on a Python dict: `none` models Python `None`. -/
def dictGet (d : SimDict) (k : String) : Option SimVal :=
  match d.find? (fun p => p.1 == k) with
  | some p => some p.2
  | none => none

/-- `k in d` on a Python dict. -/
def dictContains (d : SimDict) (k : String) : Bool :=
  d.any (fun p => p.1 == k)

/-- Abstract stand-in for CPython `str()` applied to a float.  The exact
rendering (shortest round-trip repr) is a Python builtin, not repository
code, and no claim in this development depends on its output. -/
def pyFloatRepr (q : ℚ) : String :=
  if q.den = 1 then toString q.num ++ ".0"
  else "float:" ++ toString q.num ++ "/" ++ toString q.den

/-- Python `str()` of a stored settings value. -/
def pyStr : SimVal → String
  | .intV n => toString n
  | .floatV q => pyFloatRepr q
  | .strV s => s

/-- Python `str()` of the result of `dict.get`: `str(None) = "None"`. -/
def pyFormat : Option SimVal → String
  | none => "None"
  | some v => pyStr v

/-- Python `s.split(sep)` for a single-character separator `sep`:
`"".split(".") = [""]`, `"a.b".split(".") = ["a","b"]`, and separators at
the ends produce empty components. -/
def splitOnChar (sep : Char) : List Char → List (List Char)
  | [] => [[]]
  | c :: cs =>
    if c = sep then [] :: splitOnChar sep cs
    else
      match splitOnChar sep cs with
      | [] => [[c]]
      | h :: t => (c :: h) :: t

/-- `rs[len(rs) - 1]` of `rs = resultFile.split(".")` in
`_BaseSimulator.setResultFile` (base_simulator.py line 301-302). -/
def lastDotComponent (s : String) : String :=
  ⟨(splitOnChar '.' s.data).getLastD []⟩

/-- `ds[len(ds) - 1]` of `ds = curDir.split(os.sep)` in
`_BaseSimulator._create_worDir` (base_simulator.py lines 276-277). -/
def lastSlashComponent (p : String) : String :=
  ⟨(splitOnChar '/' p.data).getLastD []⟩

/-- The substring of `s` strictly after its last `'.'` (the whole of `s`
when it has no `'.'`).  This follows the words of the claim, to be compared
with `lastDotComponent`, which follows the source. -/
def afterLastDot (s : String) : String :=
  ⟨(s.data.reverse.takeWhile (fun c => c != '.')).reverse⟩

/-- posix `os.path.join(a, b)`: `b` if `b` is absolute, otherwise `a ++ b`
when `a` is empty or ends in a separator, otherwise `a ++ "/" ++ b`. -/
def pyJoinL (a b : List Char) : List Char :=
  if b.head? = some '/' then b
  else if a = [] ∨ a.getLast? = some '/' then a ++ b
  else a ++ '/' :: b

def pyJoin (a b : String) : String :=
  ⟨pyJoinL a.data b.data⟩

/-- posix `os.path.split(p)`: `p` is cut after the last separator; the head
is then stripped of trailing separators unless it is empty or all
separators.  Computed through the reversed list: the tail is the maximal
separator-free suffix. -/
def pySplitL (l : List Char) : List Char × List Char :=
  let rev := l.reverse
  let tailPart := (rev.takeWhile (fun c => c != '/')).reverse
  let headAll := (rev.dropWhile (fun c => c != '/')).reverse
  if headAll ≠ [] ∧ headAll.any (fun c => c != '/') = true then
    ((headAll.reverse.dropWhile (fun c => c == '/')).reverse, tailPart)
  else (headAll, tailPart)

/-- Python `s.find(sub) != -1`, i.e. `sub` occurs as a contiguous substring. -/
def containsL (pat : List Char) : List Char → Bool
  | [] => pat.isPrefixOf []
  | c :: cs => pat.isPrefixOf (c :: cs) || containsL pat cs

/-- Python `s.replace(old, new)` for a non-empty `old`: replace every
non-overlapping occurrence, scanning left to right. -/
def replaceAllL (pat rep : List Char) : List Char → List Char
  | [] => []
  | c :: cs =>
    if h : pat ≠ [] ∧ pat.isPrefixOf (c :: cs) = true then
      rep ++ replaceAllL pat rep ((c :: cs).drop pat.length)
    else
      c :: replaceAllL pat rep cs
termination_by l => l.length
decreasing_by
  · simp only [List.length_drop, List.length_cons]
    have hpos : 0 < pat.length := List.length_pos.mpr h.1
    omega
  · simp [Nat.lt_succ_self]

def pyReplace (s pat rep : String) : String :=
  ⟨replaceAllL pat.data rep.data s.data⟩

/-! ### The `_BaseSimulator` settings dictionary (base_simulator.py) -/

/-- `setStartTime` (base_simulator.py lines 158-166). -/
def setStartTime (d : SimDict) (t0 : SimVal) : SimDict := dictUpdate d "t0" t0

/-- `setStopTime` (lines 168-176). -/
def setStopTime (d : SimDict) (t1 : SimVal) : SimDict := dictUpdate d "t1" t1

/-- `setTolerance` (lines 178-186). -/
def setTolerance (d : SimDict) (eps : SimVal) : SimDict := dictUpdate d "eps" eps

/-- `setSolver` (lines 188-196). -/
def setSolver (d : SimDict) (solver : SimVal) : SimDict := dictUpdate d "solver" solver

/-- `setTimeOut` (lines 282-291). -/
def setTimeOut (d : SimDict) (sec : SimVal) : SimDict := dictUpdate d "timeout" sec

/-- `setResultFile` (lines 293-303): stores the last dot-separated component
of its argument under the key `resultFile`. -/
def setResultFile (d : SimDict) (resultFile : String) : SimDict :=
  dictUpdate d "resultFile" (.strV (lastDotComponent resultFile))

/-- The `_simulator_` dictionary as built by `_BaseSimulator.__init__`
(lines 60, 67, 75-79): an empty dict, then `setResultFile(modelName)`,
`setStartTime(0)`, `setStopTime(1)`, `setTolerance(1E-6)`, `setTimeOut(-1)`. -/
def baseInitDict (modelName : String) : SimDict :=
  let d : SimDict := []
  let d := setResultFile d modelName
  let d := setStartTime d (.intV 0)
  let d := setStopTime d (.intV 1)
  let d := setTolerance d (.floatV (1 / 1000000))
  let d := setTimeOut d (.intV (-1))
  d

/-! ### Working-directory lifecycle (base_simulator.py) -/

/-- The fixed text `'tmp-simulator-' + getpass.getuser() + '-'` plus the
random suffix appended by `tempfile.mkdtemp`: the name of the fresh
temporary directory created by `_create_worDir`
(base_simulator.py lines 278-279). -/
def mkdtempStem (user rnd : String) : String :=
  "tmp-simulator-" ++ user ++ "-" ++ rnd

/-- The absolute path returned by
`tempfile.mkdtemp(prefix='tmp-simulator-' + getpass.getuser() + '-')`:
the stem, with its random suffix `rnd`, joined under the system temporary
directory `tmpRoot`. -/
def mkdtempResult (tmpRoot user rnd : String) : String :=
  pyJoin tmpRoot (mkdtempStem user rnd)

/-- `_BaseSimulator._create_worDir` (lines 269-280): the last `os.sep`
component of the absolute package path, joined under the fresh temporary
directory. -/
def create_worDir (packageAbsPath tmpParent : String) : String :=
  pyJoin tmpParent (lastSlashComponent packageAbsPath)

/-- One abstract effect of the modelled methods: filesystem operations,
subprocess invocation, reporter output and stdout prints. -/
inductive Action where
  | deleteFiles (files : List String)
  | makeTempDir (path : String)
  | mkdirAct (path : String)
  | copyTree (src dst : String)
  | writeFile (path content : String)
  | printMsg (msg : String)
  | setEnv (key value : String)
  | runSubprocess (cmd : List String)
  | readFile (path : String)
  | reportError (msg : String)
  | copyNewFiles (dir : String)
  | removeTree (path : String)
  deriving DecidableEq

def Action.isRun : Action → Bool
  | .runSubprocess _ => true
  | _ => false

def Action.isCopyTree : Action → Bool
  | .copyTree _ _ => true
  | _ => false

/-- The reporter message of the invalid-directory branch of
`_deleteTemporaryDirectory` (base_simulator.py lines 230-234). -/
def invalidDirMsg (dirNam : String) : String :=
  "Failed to delete '" ++ dirNam ++ "' as it does not seem to be a valid directory name."

/-- The reporter message of the `except IOError` handler inside
`_deleteTemporaryDirectory` (base_simulator.py lines 239-241); the
unbalanced quote is the source's. -/
def rmFailedMsg (worDir strerror : String) : String :=
  "Failed to delete '" ++ worDir ++ ": " ++ strerror

/-- `_BaseSimulator._deleteTemporaryDirectory` (lines 213-241): return
immediately on `None`; otherwise walk one level up with `os.path.split`;
if the parent does not contain `'tmp-simulator-'` (`find == -1`) only
write an error to the reporter; otherwise, when `worDir` exists
(`worDirExists` models `os.path.exists(worDir)`, line 237), call
`shutil.rmtree` on the parent, and when that raises `IOError`
(`rmOutcome` carries its `strerror`) write the failure to the reporter
(lines 239-241); when `worDir` does not exist, do nothing. -/
def deleteTemporaryDirectoryTrace (worDir : Option String) (worDirExists : Bool)
    (rmOutcome : Except String Unit) : List Action :=
  match worDir with
  | none => []
  | some w =>
    let dirNam : String := ⟨(pySplitL w.data).1⟩
    if containsL "tmp-simulator-".data dirNam.data = false then
      [.reportError (invalidDirMsg dirNam)]
    else
      if worDirExists then
        match rmOutcome with
        | .ok _ => [.removeTree dirNam]
        | .error strerror => [.removeTree dirNam, .reportError (rmFailedMsg w strerror)]
      else []

/-! ### Log scraping and error checking -/

/-- The result of `buildingspy.io.outputfile.get_errors_and_warnings`. -/
structure ScraperOutput where
  errors : List String
  warnings : List String
  deriving DecidableEq

/-- Python `s.split('\n')`. -/
def pyLines (s : String) : List String :=
  (splitOnChar '\n' s.data).map (fun l => ⟨l⟩)

/-- Modelled from the spec: `get_errors_and_warnings` lives in
`buildingspy/io/outputfile.py`, which is not under `src/`; the spec
describes it as `a simple log-scraper (pattern match for "error" markers in
text output)`.  It is modelled as returning the lines of the log text that
contain the error marker, and likewise for warnings.  The `tool` argument
of the call site is kept but unused.  No claim depends on the exact marker
match, only on whether the returned error list is empty. -/
def get_errors_and_warnings (text : String) (tool : String) : ScraperOutput :=
  { errors := (pyLines text).filter (fun l => containsL "error".data l.data)
    warnings := (pyLines text).filter (fun l => containsL "warning".data l.data) }

/-- `Dymola._check_simulation_errors` (Dymola.py lines 413-425) over a file
system `fs` mapping paths to text: read `worDir/simulator.log`, scrape it,
and if the scraper reported errors write each of them to the reporter and
raise `IOError`; otherwise do nothing. -/
def check_simulation_errors (worDir : String) (fs : String → String) :
    List Action × Except PyExc Unit :=
  let path := pyJoin worDir "simulator.log"
  let ret := get_errors_and_warnings (fs path) "dymola"
  if ret.errors.isEmpty then
    ([.readFile path], .ok ())
  else
    ([.readFile path] ++ ret.errors.map .reportError, .error .ioError)

/-! ### The Dymola command script (Dymola.py) -/

/-- The state of a `Dymola` object as `simulate()` reads it.  The
`parameterDeclarations` component stands for the result of
`_declare_parameters()`, a base-class method not under `src/` (modelled
from the spec as part of the templated script generation). -/
structure DymolaState where
  modelName : String
  packagePath : String
  simulator : SimDict
  preProcessing : List String
  postProcessing : List String
  parameterDeclarations : List String
  modelModifiers : List String
  showGUI : Bool
  exitSimulator : Bool
  deriving DecidableEq

/-- `Dymola._MODELICA_EXE` as assigned in `Dymola.__init__`
(Dymola.py line 79). -/
def Dymola_MODELICA_EXE : String := "dymola"

/-- The fixed header of the generated command file
(Dymola.py lines 154-162). -/
def scriptHeader (working_directory log_file : String) : String :=
  "\n// File autogenerated by _get_dymola_commands\n// Do not edit.\n//cd(\"" ++
    working_directory ++ "\");\nModelica.Utilities.Files.remove(\"" ++ log_file ++
    "\");\nopenModel(\"package.mo\");\nOutputCPUtime:=true;\n"

/-- Each statement of the list followed by a newline, in order: the closed
form of the `s += statement + '\n'` loops of `_get_dymola_commands`. -/
def joinStatements : List String → String
  | [] => ""
  | x :: xs => x ++ "\n" ++ joinStatements xs

/-- The `simulateModel` line of `_get_dymola_commands`
(Dymola.py lines 172-184), including the optional `numberOfIntervals`
argument. -/
def simulateModelCommand (d : SimDict) : String :=
  let intervals :=
    if dictContains d "numberOfIntervals" then
      ", numberOfIntervals=" ++ pyFormat (dictGet d "numberOfIntervals")
    else ""
  "\nsimulateModel(modelInstance, startTime=" ++ pyFormat (dictGet d "t0") ++
    ", stopTime=" ++ pyFormat (dictGet d "t1") ++
    ", method=\"" ++ pyFormat (dictGet d "solver") ++
    "\", tolerance=" ++ pyFormat (dictGet d "eps") ++
    ", resultFile=\"" ++ pyFormat (dictGet d "resultFile") ++ "\"" ++
    intervals ++ ");\n"

/-- `Dymola._get_dymola_commands` (Dymola.py lines 146-193), building the
script by successive appends exactly as the source does. -/
def get_dymola_commands (st : DymolaState)
    (working_directory log_file model_name : String) (translate_only : Bool) : String :=
  let s := scriptHeader working_directory log_file
  let s := st.preProcessing.foldl (fun acc p => acc ++ p ++ "\n") s
  let s := s ++ "modelInstance=" ++ model_name ++ ";\n"
  let s :=
    if translate_only then s ++ "translateModel(modelInstance);\n"
    else
      let intervals :=
        if dictContains st.simulator "numberOfIntervals" then
          ", numberOfIntervals=" ++ pyFormat (dictGet st.simulator "numberOfIntervals")
        else ""
      s ++ "\nsimulateModel(modelInstance, startTime=" ++
        pyFormat (dictGet st.simulator "t0") ++
        ", stopTime=" ++ pyFormat (dictGet st.simulator "t1") ++
        ", method=\"" ++ pyFormat (dictGet st.simulator "solver") ++
        "\", tolerance=" ++ pyFormat (dictGet st.simulator "eps") ++
        ", resultFile=\"" ++ pyFormat (dictGet st.simulator "resultFile") ++ "\"" ++
        intervals ++ ");\n"
  let s := st.postProcessing.foldl (fun acc p => acc ++ p ++ "\n") s
  let s := s ++ "savelog(\"" ++ log_file ++ "\");\n"
  if st.exitSimulator then s ++ "Modelica.Utilities.System.exit();\n" else s

/-! ### Subprocess commands and the simulate() traces -/

/-- The command list built by `Dymola._runSimulation`
(Dymola.py lines 393-411): the executable, the script path with the
working directory replaced by `'.'`, and `/nowindow` unless the GUI was
requested. -/
def dymola_runSimulation_cmd (gui : Bool) (mosFile directory : String) : List String :=
  let mo_fil := pyReplace mosFile directory "."
  if gui then [Dymola_MODELICA_EXE, mo_fil]
  else [Dymola_MODELICA_EXE, mo_fil, "/nowindow"]

/-- The `outputFileList` configured by `Dymola.__init__`
(Dymola.py lines 62-64); the base-class `deleteOutputFiles`, not under
`src/`, is modelled from the spec as deleting this configured list. -/
def dymolaOutputFileList : List String :=
  ["run_simulate.mos", "run_translate.mos", "run.mos", "dsfinal.txt", "dsin.txt",
    "dsmodel*", "dymosim", "dymosim.exe"]

/-- `self._simulator_.get('resultFile') + "_result.mat"` needs the stored
result-file string; `setResultFile` only ever stores strings. -/
def resultFileString (d : SimDict) : String :=
  match dictGet d "resultFile" with
  | some (.strV s) => s
  | _ => ""

/-- The model instance string `'"{mn}({dec})"'` built in `Dymola.simulate`
(lines 290-293) from the declared parameters and the model modifiers. -/
def modelInstance (st : DymolaState) : String :=
  "\"" ++ st.modelName ++ "(" ++
    String.intercalate "," (st.parameterDeclarations ++ st.modelModifiers) ++ ")\""

/-- Abstract rendering of Python `str(e)` for a caught exception; no claim
depends on its text. -/
def pyExcMessage : PyExc → String
  | .typeError => "TypeError"
  | .ioError => ""
  | .osError => "OSError"
  | .attributeError => "AttributeError"
  | .valueError => "ValueError"

/-- The message written by the `except` handler of `Dymola.simulate`
(line 314) and, with identical text, of `Optimica.simulate` (line 152). -/
def simulationFailedMsg (worDir : String) (e : PyExc) : String :=
  "Simulation failed in '" ++ worDir ++ "'\n   Exception: " ++ pyExcMessage e ++
    ".\n   You need to delete the directory manually.\n"

/-- The working directory `simulate()` computes for a Dymola object. -/
def dymolaWorDir (st : DymolaState) (tmpRoot user rnd : String) : String :=
  create_worDir st.packagePath (mkdtempResult tmpRoot user rnd)

/-- `runScriptName = os.path.join(worDir, "run.mos")` of `Dymola.simulate`
(line 297). -/
def dymolaRunScript (st : DymolaState) (tmpRoot user rnd : String) : String :=
  pyJoin (dymolaWorDir st tmpRoot user rnd) "run.mos"

/-- The actions of `Dymola.simulate` before the `try` block: delete the
output files (the base-class `deleteOutputFiles` is not under `src/` and is
modelled from the spec as deleting the configured list, plus the
`_result.mat` delete of `Dymola.deleteOutputFiles`), create the fresh
temporary directory, and copy the package tree into it (lines 278-286). -/
def dymolaPreTrace (st : DymolaState) (tmpRoot user rnd : String) : List Action :=
  [.deleteFiles dymolaOutputFileList,
   .deleteFiles [resultFileString st.simulator ++ "_result.mat"],
   .makeTempDir (mkdtempResult tmpRoot user rnd),
   .copyTree st.packagePath (dymolaWorDir st tmpRoot user rnd)]

/-- The first actions inside the `try` block of `Dymola.simulate`: write
the generated script and start the external process (lines 296-309). -/
def dymolaTryHead (st : DymolaState) (tmpRoot user rnd : String) : List Action :=
  [.writeFile (dymolaRunScript st tmpRoot user rnd)
     (get_dymola_commands st (dymolaWorDir st tmpRoot user rnd) "simulator.log"
       (modelInstance st) false),
   .runSubprocess (dymola_runSimulation_cmd st.showGUI
     (dymolaRunScript st tmpRoot user rnd) (dymolaWorDir st tmpRoot user rnd))]

/-- `Dymola.simulate` (Dymola.py lines 256-315).  The outcome of the
external process (`runOutcome`), the content of the file system after it
(`fs`), the outcome of the output-file copy (`copyOutcome`) and the
outcome of the final `shutil.rmtree` (`rmOutcome`) are inputs; the
base-class `_runSimulation`, `deleteOutputFiles` and `_copyNewFiles`
bodies are not under `src/` and are modelled from the spec as the
corresponding fallible steps.  When the cleanup call is reached, `worDir`
was populated by the `shutil.copytree` of line 285, so
`os.path.exists(worDir)` is true there.  Returns the trace and the result
of the call (`simulate` catches every `Exception`). -/
def dymolaSimulate (st : DymolaState) (tmpRoot user rnd : String)
    (runOutcome : Except PyExc Unit) (fs : String → String)
    (copyOutcome : Except PyExc Unit) (rmOutcome : Except String Unit) :
    List Action × Except PyExc Unit :=
  let worDir := dymolaWorDir st tmpRoot user rnd
  let tryPart : List Action × Except PyExc Unit :=
    let rtr := dymolaTryHead st tmpRoot user rnd
    match runOutcome with
    | .error e => (rtr, .error e)
    | .ok _ =>
      match check_simulation_errors worDir fs with
      | (ctr, .error e) => (rtr ++ ctr, .error e)
      | (ctr, .ok _) =>
        match copyOutcome with
        | .error e => (rtr ++ ctr ++ [.copyNewFiles worDir], .error e)
        | .ok _ =>
          (rtr ++ ctr ++ [.copyNewFiles worDir] ++
            deleteTemporaryDirectoryTrace (some worDir) true rmOutcome, .ok ())
  match tryPart with
  | (tr, .ok _) => (dymolaPreTrace st tmpRoot user rnd ++ tr, .ok ())
  | (tr, .error e) =>
    (dymolaPreTrace st tmpRoot user rnd ++ tr ++
      [.reportError (simulationFailedMsg worDir e)], .ok ())

/-- The state of an `Optimica` object as `simulate()` reads it. -/
structure OptimicaState where
  modelName : String
  packagePath : String
  simulator : SimDict
  deriving DecidableEq

/-- Modelled from the spec: the jinja2 template `optimica_run.template`
(under `buildingspy/development/`, not under `src/`) is rendered by string
substitution of the model name and stored settings, exactly the spec's
`templated script generator (string substitution into a command file)`.
The frame below stands for the template text; no claim depends on it. -/
def optimicaRenderedScript (ost : OptimicaState) : String :=
  "model=" ++ ost.modelName ++
    "\nncp=" ++ pyFormat (dictGet ost.simulator "numberOfIntervals") ++
    "\nrtol=" ++ pyFormat (dictGet ost.simulator "eps") ++
    "\nsolver=" ++ pyFormat (dictGet ost.simulator "solver") ++
    "\nstart_time=" ++ pyFormat (dictGet ost.simulator "t0") ++
    "\nstop_time=" ++ pyFormat (dictGet ost.simulator "t1") ++
    "\nresult_file=" ++ pyFormat (dictGet ost.simulator "resultFile") ++
    "\nsimulate=True\ntime_out=" ++ pyFormat (dictGet ost.simulator "time_out") ++
    "\nfilter=*\n"

/-- Modelled from the spec: `self._check_simulation_errors(worDir)` called
by `Optimica.simulate` (line 147) is base-class code not under `src/`; per
the spec's log-scraper description it is modelled like the Dymola checker,
reading the run's log file and raising `IOError` when the scraper reports
errors. -/
def optimica_check_simulation_errors (ost : OptimicaState) (worDir : String)
    (fs : String → String) : List Action × Except PyExc Unit :=
  let path := pyJoin worDir (pyReplace ost.modelName "." "_" ++ "_log.txt")
  let ret := get_errors_and_warnings (fs path) "optimica"
  if ret.errors.isEmpty then
    ([.readFile path], .ok ())
  else
    ([.readFile path] ++ ret.errors.map .reportError, .error .ioError)

/-- The working directory `simulate()` computes for an Optimica object. -/
def optimicaWorDir (ost : OptimicaState) (tmpRoot user rnd : String) : String :=
  create_worDir ost.packagePath (mkdtempResult tmpRoot user rnd)

/-- The script path written by `Optimica.simulate` (line 129): the model
name with dots replaced by underscores, with extension `.py`, under the
working directory. -/
def optimicaScriptFile (ost : OptimicaState) (tmpRoot user rnd : String) : String :=
  pyJoin (optimicaWorDir ost tmpRoot user rnd) (pyReplace ost.modelName "." "_" ++ ".py")

/-- The actions of `Optimica.simulate` before the `try` block (lines
84-139): delete the output files, create the fresh temporary directory,
`os.mkdir(worDir)` when it does not exist yet, the three stdout prints,
the write of the rendered script, and the `MODELICAPATH` update.  Note the
`shutil.copytree` of the docstring step 2 is commented out in the source
(lines 94-95): no copy action occurs. -/
def optimicaPreTrace (ost : OptimicaState) (tmpRoot user rnd : String)
    (worDirExists : Bool) (modPath : Option String) (cwd : String) : List Action :=
  [.deleteFiles [pyFormat (dictGet ost.simulator "resultFile") ++ ".mat"],
   .makeTempDir (mkdtempResult tmpRoot user rnd)] ++
  (if worDirExists then [] else [.mkdirAct (optimicaWorDir ost tmpRoot user rnd)]) ++
  [.printMsg ("******** Working dir is " ++ optimicaWorDir ost tmpRoot user rnd),
   .printMsg ("******** model name is " ++ ost.modelName),
   .writeFile (optimicaScriptFile ost tmpRoot user rnd) (optimicaRenderedScript ost),
   .printMsg ("******** Wrote file " ++ optimicaScriptFile ost tmpRoot user rnd),
   .setEnv "MODELICAPATH" (match modPath with
     | none => cwd
     | some mp => cwd ++ ":" ++ mp)]

/-- `Optimica.simulate` (Optimica.py lines 61-154).  `worDirExists`,
`modPath` and `cwd` model `os.path.exists(worDir)` before the `os.mkdir`
of lines 89-90, the `MODELICAPATH` environment value and `os.getcwd()`;
the remaining inputs are as for `dymolaSimulate`, with the error check
and result-file copy (base-class code not under `src/`) modelled from the
spec.  When the cleanup call is reached the working directory exists: it
was either found existing or created by the `os.mkdir`, so
`os.path.exists(worDir)` is true at line 237 of the delete helper. -/
def optimicaSimulate (ost : OptimicaState) (tmpRoot user rnd : String)
    (worDirExists : Bool) (modPath : Option String) (cwd : String)
    (runOutcome : Except PyExc Unit) (fs : String → String)
    (copyOutcome : Except PyExc Unit) (rmOutcome : Except String Unit) :
    List Action × Except PyExc Unit :=
  let worDir := optimicaWorDir ost tmpRoot user rnd
  let tryPart : List Action × Except PyExc Unit :=
    let rtr := [Action.runSubprocess ["jm_ipython.sh", optimicaScriptFile ost tmpRoot user rnd]]
    match runOutcome with
    | .error e => (rtr, .error e)
    | .ok _ =>
      match optimica_check_simulation_errors ost worDir fs with
      | (ctr, .error e) => (rtr ++ ctr, .error e)
      | (ctr, .ok _) =>
        match copyOutcome with
        | .error e => (rtr ++ ctr ++ [.copyNewFiles worDir], .error e)
        | .ok _ =>
          (rtr ++ ctr ++ [.copyNewFiles worDir] ++
            deleteTemporaryDirectoryTrace (some worDir) true rmOutcome, .ok ())
  match tryPart with
  | (tr, .ok _) =>
    (optimicaPreTrace ost tmpRoot user rnd worDirExists modPath cwd ++ tr, .ok ())
  | (tr, .error e) =>
    (optimicaPreTrace ost tmpRoot user rnd worDirExists modPath cwd ++ tr ++
      [.reportError (simulationFailedMsg worDir e)], .ok ())

/-! ### Constructors (the `super().__init__` keyword mismatch) -/

/-- The parameters accepted by `_BaseSimulator.__init__`
(base_simulator.py line 44); the method has no `**kwargs`. -/
def baseInitParams : List String := ["modelName", "outputDirectory", "packagePath"]

/-- The keyword arguments passed by `Dymola.__init__` to
`super().__init__` (Dymola.py lines 58-66). -/
def dymolaSuperInitKeywords : List String :=
  ["modelName", "outputDirectory", "packagePath", "outputFileList", "logFileList"]

/-- The keyword arguments passed by `Optimica.__init__` to
`super().__init__` (Optimica.py lines 51-56). -/
def optimicaSuperInitKeywords : List String :=
  ["modelName", "outputDirectory", "packagePath", "outputFileList", "logFileList"]

/-- CPython call binding: a keyword argument that is not among the
function's parameters (and no `**kwargs` to receive it) raises
`TypeError` before the body runs. -/
def pyAcceptsKeywords (params kwargs : List String) : Bool :=
  kwargs.all (fun k => params.contains k)

/-- `Dymola.__init__(modelName, outputDirectory, packagePath)`
(Dymola.py lines 54-80): the `super().__init__` call with five keywords
against the three base parameters, then (were it reached) the base dict
construction followed by the subclass settings of lines 70-78. -/
def dymolaInit (modelName outputDirectory packagePath : String) :
    Except PyExc SimDict :=
  if pyAcceptsKeywords baseInitParams dymolaSuperInitKeywords = false then
    .error .typeError
  else
    let d := baseInitDict modelName
    let d := setStartTime d (.intV 0)
    let d := setStopTime d (.intV 1)
    let d := setResultFile d (lastDotComponent modelName)
    let d := setSolver d (.strV "radau")
    .ok d

/-- `Optimica.__init__(modelName, outputDirectory, packagePath)`
(Optimica.py lines 47-59). -/
def optimicaInit (modelName outputDirectory packagePath : String) :
    Except PyExc SimDict :=
  if pyAcceptsKeywords baseInitParams optimicaSuperInitKeywords = false then
    .error .typeError
  else
    let d := baseInitDict modelName
    let d := setSolver d (.strV "CVode")
    .ok d

/-! ### Claim theorems -/

/-- The error lines the scraper reports on the log that
`Dymola._check_simulation_errors` reads. -/
def dymolaLogErrors (st : DymolaState) (tmpRoot user rnd : String)
    (fs : String → String) : List String :=
  (get_errors_and_warnings
    (fs (pyJoin (dymolaWorDir st tmpRoot user rnd) "simulator.log")) "dymola").errors

/-- The error lines the scraper reports on the log that the Optimica error
check reads. -/
def optimicaLogErrors (ost : OptimicaState) (tmpRoot user rnd : String)
    (fs : String → String) : List String :=
  (get_errors_and_warnings
    (fs (pyJoin (optimicaWorDir ost tmpRoot user rnd)
      (pyReplace ost.modelName "." "_" ++ "_log.txt"))) "optimica").errors

/-- A concrete Dymola object state used as witness input. -/
def sampleDymolaState : DymolaState :=
  { modelName := "MyLib.MyModel"
    packagePath := "/home/u/MyLib"
    simulator := baseInitDict "MyLib.MyModel"
    preProcessing := []
    postProcessing := []
    parameterDeclarations := []
    modelModifiers := []
    showGUI := false
    exitSimulator := true }

/-- A concrete Optimica object state used as witness input. -/
def sampleOptimicaState : OptimicaState :=
  { modelName := "MyLib.MyModel"
    packagePath := "/home/u/MyLib"
    simulator := baseInitDict "MyLib.MyModel" }

/-! ### Theorems -/

theorem splitOnChar_ne_nil (sep : Char) (l : List Char) : splitOnChar sep l ≠ [] := by
  match l with
  | [] => simp [splitOnChar]
  | c :: cs =>
    simp only [splitOnChar]
    split
    · simp
    · split <;> simp

theorem not_mem_of_mem_splitOnChar (sep : Char) :
    ∀ (l : List Char), ∀ x ∈ splitOnChar sep l, sep ∉ x := by
  intro l
  induction l with
  | nil =>
    intro x hx
    simp [splitOnChar] at hx
    simp [hx]
  | cons c cs ih =>
    intro x hx
    simp only [splitOnChar] at hx
    by_cases hc : c = sep
    · rw [if_pos hc] at hx
      rcases List.mem_cons.mp hx with h | h
      · simp [h]
      · exact ih x h
    · rw [if_neg hc] at hx
      rcases hsp : splitOnChar sep cs with _ | ⟨h1, t1⟩
      · exact absurd hsp (splitOnChar_ne_nil sep cs)
      · rw [hsp] at hx
        rcases List.mem_cons.mp hx with h | h
        · subst h
          intro hmem
          rcases List.mem_cons.mp hmem with h | h
          · exact hc h.symm
          · exact ih h1 (by rw [hsp]; exact List.mem_cons_self _ _) h
        · exact ih x (by rw [hsp]; exact List.mem_cons_of_mem _ h)

theorem splitOnChar_of_not_mem (sep : Char) :
    ∀ (l : List Char), sep ∉ l → splitOnChar sep l = [l] := by
  intro l
  induction l with
  | nil => intro _; rfl
  | cons c cs ih =>
    intro h
    have hc : ¬ c = sep := fun hcc => h (by simp [hcc])
    have hcs : sep ∉ cs := fun hm => h (List.mem_cons_of_mem _ hm)
    simp only [splitOnChar, if_neg hc, ih hcs]

theorem two_le_length_splitOnChar (sep : Char) :
    ∀ (l : List Char), sep ∈ l → 2 ≤ (splitOnChar sep l).length := by
  intro l
  induction l with
  | nil => intro h; simp at h
  | cons c cs ih =>
    intro h
    simp only [splitOnChar]
    by_cases hc : c = sep
    · rw [if_pos hc]
      have := splitOnChar_ne_nil sep cs
      have hpos : 0 < (splitOnChar sep cs).length := List.length_pos.mpr this
      simp only [List.length_cons]
      omega
    · rw [if_neg hc]
      have hm : sep ∈ cs := by
        rcases List.mem_cons.mp h with h1 | h1
        · exact absurd h1.symm hc
        · exact h1
      rcases hsp : splitOnChar sep cs with _ | ⟨h1, t1⟩
      · exact absurd hsp (splitOnChar_ne_nil sep cs)
      · have := ih hm
        rw [hsp] at this
        simpa using this

theorem takeWhile_append_single_neg {p : Char → Bool} {x : Char} (hx : p x = false) :
    ∀ (xs : List Char), ((xs ++ [x]).takeWhile p) = xs.takeWhile p := by
  intro xs
  induction xs with
  | nil => simp [List.takeWhile, hx]
  | cons a as ih =>
    simp only [List.cons_append, List.takeWhile_cons]
    cases hpa : p a
    · simp
    · simp [ih]

theorem takeWhile_append_all {p : Char → Bool} :
    ∀ {xs : List Char}, (∀ a ∈ xs, p a = true) →
      ∀ (ys : List Char), (xs ++ ys).takeWhile p = xs ++ ys.takeWhile p := by
  intro xs
  induction xs with
  | nil => intro _ ys; simp
  | cons a as ih =>
    intro h ys
    have ha : p a = true := h a (List.mem_cons_self _ _)
    simp [ha, ih (fun b hb => h b (List.mem_cons_of_mem _ hb)) ys]

theorem takeWhile_append_of_exists_false {p : Char → Bool} :
    ∀ {xs : List Char}, (∃ a ∈ xs, p a = false) →
      ∀ (ys : List Char), (xs ++ ys).takeWhile p = xs.takeWhile p := by
  intro xs
  induction xs with
  | nil => intro h; rcases h with ⟨a, ha, _⟩; simp at ha
  | cons a as ih =>
    intro h ys
    simp only [List.cons_append, List.takeWhile_cons]
    cases hpa : p a
    · simp
    · rcases h with ⟨b, hb, hpb⟩
      rcases List.mem_cons.mp hb with h1 | h1
      · subst h1; rw [hpa] at hpb; cases hpb
      · simp only [cond_true]
        rw [ih ⟨b, h1, hpb⟩ ys]

theorem dropWhile_append_all {p : Char → Bool} :
    ∀ {xs : List Char}, (∀ a ∈ xs, p a = true) →
      ∀ (ys : List Char), (xs ++ ys).dropWhile p = ys.dropWhile p := by
  intro xs
  induction xs with
  | nil => intro _ ys; simp
  | cons a as ih =>
    intro h ys
    have ha : p a = true := h a (List.mem_cons_self _ _)
    simp only [List.cons_append, List.dropWhile_cons, ha]
    exact ih (fun b hb => h b (List.mem_cons_of_mem _ hb)) ys

theorem getLastD_of_ne_nil {l : List (List Char)} (h : l ≠ []) (d d' : List Char) :
    l.getLastD d = l.getLastD d' := by
  rw [List.getLastD_eq_getLast? _ _, List.getLastD_eq_getLast? _ _]
  cases hl : l.getLast? with
  | none => exact absurd (List.getLast?_eq_none_iff.mp hl) h
  | some x => rfl

theorem getLastD_cons_ne_nil {t : List (List Char)} (h : t ≠ []) (x y : List Char) :
    (x :: t).getLastD [] = (y :: t).getLastD [] := by
  rw [List.getLastD_cons, List.getLastD_cons]
  exact getLastD_of_ne_nil h x y

theorem getLastD_mem {l : List (List Char)} (h : l ≠ []) (d : List Char) :
    l.getLastD d ∈ l := by
  rw [List.getLastD_eq_getLast? _ _]
  cases hl : l.getLast? with
  | none => exact absurd (List.getLast?_eq_none_iff.mp hl) h
  | some x => exact List.mem_of_mem_getLast? (by simp [hl])

/-- The last component of a Python single-character split is exactly the
part of the list after the last occurrence of the separator. -/
theorem getLastD_splitOnChar (sep : Char) :
    ∀ (l : List Char),
      (splitOnChar sep l).getLastD [] = (l.reverse.takeWhile (fun c => c != sep)).reverse := by
  intro l
  induction l with
  | nil => rfl
  | cons c cs ih =>
    simp only [splitOnChar]
    by_cases hc : c = sep
    · rw [if_pos hc]
      have hne := splitOnChar_ne_nil sep cs
      rw [List.getLastD_cons, getLastD_of_ne_nil hne [] [], ih]
      subst hc
      rw [List.reverse_cons, takeWhile_append_single_neg (by simp)]
    · rw [if_neg hc]
      rcases hsp : splitOnChar sep cs with _ | ⟨h1, t1⟩
      · exact absurd hsp (splitOnChar_ne_nil sep cs)
      · rcases ht : t1 with _ | ⟨t2, t3⟩
        · -- one component: cs contains no separator
          have hnosep : sep ∉ cs := by
            intro hm
            have := two_le_length_splitOnChar sep cs hm
            rw [hsp, ht] at this
            simp at this
          have hcs : splitOnChar sep cs = [cs] := splitOnChar_of_not_mem sep cs hnosep
          have hh1 : h1 = cs := by
            rw [hsp, ht] at hcs
            simpa using hcs
          have hall : ∀ a ∈ cs.reverse, (a != sep) = true := by
            intro a ha
            have : a ∈ cs := List.mem_reverse.mp ha
            have : ¬ a = sep := fun hh => hnosep (hh ▸ this)
            simpa using this
          have hcne : (c != sep) = true := by simpa using hc
          rw [hh1]
          change ((c :: cs) :: []).getLastD [] = _
          rw [List.reverse_cons, takeWhile_append_all hall]
          simp [List.takeWhile, hcne]
        · -- at least two components: cs contains a separator
          have hlen : 2 ≤ (splitOnChar sep cs).length := by
            rw [hsp, ht]; simp
          have hmem : sep ∈ cs := by
            by_contra hm
            have := splitOnChar_of_not_mem sep cs hm
            rw [this] at hlen
            simp at hlen
          rw [List.reverse_cons,
            takeWhile_append_of_exists_false
              ⟨sep, List.mem_reverse.mpr hmem, by simp⟩]
          change ((c :: h1) :: t2 :: t3).getLastD [] = _
          rw [← ih, hsp, ht]
          exact getLastD_cons_ne_nil (by simp) _ _

/-- `lastDotComponent` (from the source) agrees with `afterLastDot`
(from the words of the claim). -/
theorem lastDotComponent_eq_afterLastDot (s : String) :
    lastDotComponent s = afterLastDot s := by
  unfold lastDotComponent afterLastDot
  rw [getLastD_splitOnChar]

theorem afterLastDot_of_not_mem (s : String) (h : '.' ∉ s.data) : afterLastDot s = s := by
  unfold afterLastDot
  have hall : ∀ a ∈ s.data.reverse, (a != '.') = true := by
    intro a ha
    have : a ∈ s.data := List.mem_reverse.mp ha
    have : ¬ a = '.' := fun hh => h (hh ▸ this)
    simpa using this
  rw [List.takeWhile_eq_self_iff.mpr hall, List.reverse_reverse]

theorem isPrefixOf_append_self : ∀ (a b : List Char), a.isPrefixOf (a ++ b) = true := by
  intro a
  induction a with
  | nil => intro b; simp [List.isPrefixOf]
  | cons c cs ih => intro b; simp [List.isPrefixOf, ih b]

theorem containsL_append (pat : List Char) :
    ∀ (x y : List Char), containsL pat (x ++ pat ++ y) = true := by
  intro x
  induction x with
  | nil =>
    intro y
    simp only [List.nil_append]
    match hp : pat ++ y with
    | [] =>
      have : pat = [] := by
        rcases List.append_eq_nil.mp hp with ⟨h1, _⟩
        exact h1
      simp [containsL, hp, this, List.isPrefixOf]
    | c :: cs =>
      rw [containsL]
      have : pat.isPrefixOf (c :: cs) = true := by
        rw [← hp]; exact isPrefixOf_append_self pat y
      simp [this]
  | cons c cs ih =>
    intro y
    simp only [List.cons_append]
    rw [containsL]
    have := ih y
    rw [List.append_assoc] at this
    simp [this]

theorem length_le_of_isPrefixOf :
    ∀ (a l : List Char), a.isPrefixOf l = true → a.length ≤ l.length := by
  intro a
  induction a with
  | nil => intro l _; simp
  | cons c cs ih =>
    intro l h
    match l with
    | [] => simp [List.isPrefixOf] at h
    | b :: bs =>
      simp only [List.isPrefixOf, Bool.and_eq_true] at h
      have := ih bs h.2
      simp only [List.length_cons]
      omega

theorem replaceAllL_append_self (pat rep : List Char) (hp : pat ≠ []) :
    ∀ (b : List Char), replaceAllL pat rep (pat ++ b) = rep ++ replaceAllL pat rep b := by
  intro b
  obtain ⟨c, cs, rfl⟩ := List.exists_cons_of_ne_nil hp
  rw [show (c :: cs) ++ b = c :: (cs ++ b) from rfl, replaceAllL]
  have hpre : (c :: cs).isPrefixOf (c :: (cs ++ b)) = true := by
    simpa using isPrefixOf_append_self (c :: cs) b
  rw [dif_pos ⟨by simp, hpre⟩]
  congr 1
  simpa using List.drop_left (c :: cs) b

theorem pySplitL_append (A B : List Char) (hA : A ≠ []) (hL : A.getLast? ≠ some '/')
    (hNon : ∃ c ∈ A, (c != '/') = true) (hB : ∀ c ∈ B, (c != '/') = true) :
    pySplitL (A ++ '/' :: B) = (A, B) := by
  have hrev : (A ++ '/' :: B).reverse = B.reverse ++ '/' :: A.reverse := by
    rw [List.reverse_append, List.reverse_cons, List.append_assoc]
    rfl
  have hBr : ∀ a ∈ B.reverse, (a != '/') = true := fun a ha => hB a (List.mem_reverse.mp ha)
  have htake : ((A ++ '/' :: B).reverse.takeWhile (fun c => c != '/')) = B.reverse := by
    rw [hrev, takeWhile_append_all hBr]
    simp [List.takeWhile]
  have hdrop : ((A ++ '/' :: B).reverse.dropWhile (fun c => c != '/')) = '/' :: A.reverse := by
    rw [hrev, dropWhile_append_all hBr]
    simp [List.dropWhile]
  have hAr : A.reverse.dropWhile (fun c => c == '/') = A.reverse := by
    obtain ⟨d, rest, hdr⟩ : ∃ d rest, A.reverse = d :: rest := by
      rcases h : A.reverse with _ | ⟨d, rest⟩
      · refine absurd ?_ hA
        have := congrArg List.reverse h
        simpa using this
      · exact ⟨d, rest, rfl⟩
    have hd : ¬ d = '/' := by
      have hh : A.reverse.head? = A.getLast? := List.head?_reverse A
      rw [hdr] at hh
      intro hcc
      exact hL (by rw [← hh, hcc]; rfl)
    have hdb : (d == '/') = false := by simpa using hd
    rw [hdr]
    simp [List.dropWhile_cons, hdb]
  rcases hNon with ⟨cw, hcw, hcwne⟩
  simp only [pySplitL, htake, hdrop]
  rw [List.reverse_cons, List.reverse_reverse]
  have hcond : (A ++ ['/']) ≠ [] ∧ (A ++ ['/']).any (fun c => c != '/') = true := by
    constructor
    · simp
    · exact List.any_eq_true.mpr ⟨cw, List.mem_append_left _ hcw, hcwne⟩
  rw [if_pos hcond]
  refine Prod.ext ?_ ?_
  · show ((A ++ ['/']).reverse.dropWhile (fun c => c == '/')).reverse = A
    rw [List.reverse_append]
    show (((['/'].reverse ++ A.reverse).dropWhile (fun c => c == '/'))).reverse = A
    rw [show ['/'].reverse ++ A.reverse = '/' :: A.reverse from rfl]
    rw [List.dropWhile_cons]
    simp only [beq_self_eq_true, if_true]
    rw [hAr, List.reverse_reverse]
  · show B.reverse.reverse = B
    exact List.reverse_reverse B

theorem bool_eq_false {b : Bool} (h : ¬ b = true) : b = false := by
  cases b
  · rfl
  · exact absurd rfl h

theorem find?_append_key (k : String) (v : SimVal) :
    ∀ (d : SimDict), d.any (fun p => p.1 == k) = false →
      (d ++ [(k, v)]).find? (fun p => p.1 == k) = some (k, v) := by
  intro d
  induction d with
  | nil =>
    intro _
    simp [List.find?_cons_of_pos]
  | cons p ps ih =>
    intro h
    simp only [List.any_cons, Bool.or_eq_false_iff] at h
    rw [List.cons_append, List.find?_cons_of_neg _ (by simp [h.1])]
    exact ih h.2

theorem find?_map_key (k : String) (v : SimVal) :
    ∀ (d : SimDict), d.any (fun p => p.1 == k) = true →
      (d.map (fun p => if p.1 == k then (k, v) else p)).find? (fun p => p.1 == k) =
        some (k, v) := by
  intro d
  induction d with
  | nil => intro h; simp at h
  | cons p ps ih =>
    intro h
    by_cases hp : (p.1 == k) = true
    · have hm : (if p.1 == k then (k, v) else p) = (k, v) := by simp [hp]
      simp only [List.map_cons, hm]
      rw [List.find?_cons]
      simp
    · have hp' : (p.1 == k) = false := bool_eq_false hp
      have hm : (if p.1 == k then (k, v) else p) = p := by simp [hp']
      simp only [List.map_cons, hm]
      rw [List.find?_cons_of_neg _ (by simp [hp'])]
      simp only [List.any_cons, hp', Bool.false_or] at h
      exact ih h

theorem dictGet_update_self (d : SimDict) (k : String) (v : SimVal) :
    dictGet (dictUpdate d k v) k = some v := by
  unfold dictUpdate dictGet
  by_cases h : d.any (fun p => p.1 == k)
  · rw [if_pos h, find?_map_key k v d h]
  · rw [if_neg h, find?_append_key k v d (bool_eq_false h)]

theorem find?_map_other (k k' : String) (v : SimVal) (hkk : (k == k') = false) :
    ∀ (d : SimDict),
      (d.map (fun p => if p.1 == k then (k, v) else p)).find? (fun p => p.1 == k') =
        d.find? (fun p => p.1 == k') := by
  intro d
  induction d with
  | nil => rfl
  | cons p ps ih =>
    by_cases hp : (p.1 == k) = true
    · have hpk : p.1 = k := eq_of_beq hp
      have hpke : (p.1 == k') = false := by rw [hpk]; exact hkk
      have hm : (if p.1 == k then (k, v) else p) = (k, v) := by simp [hp]
      simp only [List.map_cons, hm]
      rw [List.find?_cons_of_neg _ (by simp [hkk]), List.find?_cons_of_neg _ (by simp [hpke])]
      exact ih
    · have hp' : (p.1 == k) = false := bool_eq_false hp
      have hm : (if p.1 == k then (k, v) else p) = p := by simp [hp']
      simp only [List.map_cons, hm]
      by_cases hq : (p.1 == k') = true
      · rw [List.find?_cons_of_pos _ (by simp [hq]), List.find?_cons_of_pos _ (by simp [hq])]
      · have hq' : (p.1 == k') = false := bool_eq_false hq
        rw [List.find?_cons_of_neg _ (by simp [hq']), List.find?_cons_of_neg _ (by simp [hq'])]
        exact ih

theorem find?_append_other (k k' : String) (v : SimVal) (hkk : (k == k') = false) :
    ∀ (d : SimDict),
      (d ++ [(k, v)]).find? (fun p => p.1 == k') = d.find? (fun p => p.1 == k') := by
  intro d
  induction d with
  | nil =>
    rw [List.nil_append, List.find?_cons_of_neg _ (by simp [hkk])]
  | cons p ps ih =>
    by_cases hq : (p.1 == k') = true
    · rw [List.cons_append, List.find?_cons_of_pos _ (by simp [hq]),
        List.find?_cons_of_pos _ (by simp [hq])]
    · have hq' : (p.1 == k') = false := bool_eq_false hq
      rw [List.cons_append, List.find?_cons_of_neg _ (by simp [hq']),
        List.find?_cons_of_neg _ (by simp [hq'])]
      exact ih

theorem dictGet_update_other (d : SimDict) (k k' : String) (v : SimVal) (h : k' ≠ k) :
    dictGet (dictUpdate d k v) k' = dictGet d k' := by
  have hkk : (k == k') = false := by
    cases hb : (k == k')
    · rfl
    · exact absurd (eq_of_beq hb).symm h
  unfold dictUpdate dictGet
  by_cases hin : d.any (fun p => p.1 == k)
  · rw [if_pos hin, find?_map_other k k' v hkk d]
  · rw [if_neg hin, find?_append_other k k' v hkk d]

/-! ### Helper lemmas about the temporary-directory paths -/

theorem mkdtempStem_data (user rnd : String) :
    (mkdtempStem user rnd).data =
      "tmp-simulator-".data ++ (user.data ++ ("-".data ++ rnd.data)) := by
  unfold mkdtempStem
  rw [String.data_append, String.data_append, String.data_append]
  rw [List.append_assoc, List.append_assoc]

theorem mkdtempResult_cases (tmpRoot user rnd : String) :
    (mkdtempResult tmpRoot user rnd).data = tmpRoot.data ++ (mkdtempStem user rnd).data ∨
    (mkdtempResult tmpRoot user rnd).data =
      (tmpRoot.data ++ ['/']) ++ (mkdtempStem user rnd).data := by
  have hhead : (mkdtempStem user rnd).data.head? = some 't' := by
    rw [mkdtempStem_data]
    rfl
  have hhne : ¬ ((mkdtempStem user rnd).data.head? = some '/') := by
    rw [hhead]
    simp
  unfold mkdtempResult pyJoin pyJoinL
  rw [if_neg hhne]
  by_cases hc : tmpRoot.data = [] ∨ tmpRoot.data.getLast? = some '/'
  · rw [if_pos hc]
    left
    rfl
  · rw [if_neg hc]
    right
    show tmpRoot.data ++ '/' :: (mkdtempStem user rnd).data = _
    rw [List.append_assoc]
    rfl

theorem mkdtempResult_shape (tmpRoot user rnd : String) :
    ∃ T, (mkdtempResult tmpRoot user rnd).data = T ++ (mkdtempStem user rnd).data := by
  rcases mkdtempResult_cases tmpRoot user rnd with h | h
  · exact ⟨tmpRoot.data, h⟩
  · exact ⟨tmpRoot.data ++ ['/'], h⟩

theorem mkdtempResult_marker (tmpRoot user rnd : String) :
    containsL ("tmp-simulator-" ++ user).data (mkdtempResult tmpRoot user rnd).data = true := by
  obtain ⟨T, hT⟩ := mkdtempResult_shape tmpRoot user rnd
  have hstem : (mkdtempStem user rnd).data =
      ("tmp-simulator-" ++ user).data ++ ("-".data ++ rnd.data) := by
    rw [mkdtempStem_data, String.data_append, List.append_assoc]
  rw [hT, hstem, ← List.append_assoc]
  exact containsL_append _ T _

theorem mkdtempResult_marker0 (tmpRoot user rnd : String) :
    containsL "tmp-simulator-".data (mkdtempResult tmpRoot user rnd).data = true := by
  obtain ⟨T, hT⟩ := mkdtempResult_shape tmpRoot user rnd
  rw [hT, mkdtempStem_data, ← List.append_assoc]
  exact containsL_append _ T _

theorem mkdtempResult_ne_nil (tmpRoot user rnd : String) :
    (mkdtempResult tmpRoot user rnd).data ≠ [] := by
  obtain ⟨T, hT⟩ := mkdtempResult_shape tmpRoot user rnd
  intro hc
  rw [hT, mkdtempStem_data] at hc
  rcases List.append_eq_nil.mp hc with ⟨_, h2⟩
  rcases List.append_eq_nil.mp h2 with ⟨h3, _⟩
  exact (show ("tmp-simulator-".data : List Char) ≠ [] by decide) h3

theorem string_ne_empty_iff (s : String) : s ≠ "" ↔ s.data ≠ [] := by
  constructor
  · intro h hc
    refine h (String.ext ?_)
    simpa using hc
  · intro h hc
    exact h (by rw [hc])

theorem mkdtempResult_getLast (tmpRoot user rnd : String) (hrne : rnd ≠ "") :
    (mkdtempResult tmpRoot user rnd).data.getLast? = rnd.data.getLast? := by
  obtain ⟨T, hT⟩ := mkdtempResult_shape tmpRoot user rnd
  have hrd : rnd.data ≠ [] := (string_ne_empty_iff rnd).mp hrne
  rw [hT, mkdtempStem_data]
  rw [List.getLast?_append_of_ne_nil T (by simp [hrd])]
  rw [List.getLast?_append_of_ne_nil _ (by simp [hrd])]
  rw [List.getLast?_append_of_ne_nil _ (by simp [hrd])]
  rw [List.getLast?_append_of_ne_nil _ hrd]

theorem mkdtempResult_getLast_ne (tmpRoot user rnd : String)
    (hr : '/' ∉ rnd.data) (hrne : rnd ≠ "") :
    (mkdtempResult tmpRoot user rnd).data.getLast? ≠ some '/' := by
  rw [mkdtempResult_getLast tmpRoot user rnd hrne]
  intro hc
  exact hr (List.mem_of_mem_getLast? (by simp [hc]))

theorem mkdtempResult_has_non_slash (tmpRoot user rnd : String) :
    ∃ c ∈ (mkdtempResult tmpRoot user rnd).data, (c != '/') = true := by
  obtain ⟨T, hT⟩ := mkdtempResult_shape tmpRoot user rnd
  refine ⟨'t', ?_, by decide⟩
  rw [hT, mkdtempStem_data]
  exact List.mem_append.mpr (Or.inr (List.mem_append.mpr (Or.inl (by decide))))

theorem lastSlashComponent_no_slash (p : String) : '/' ∉ (lastSlashComponent p).data := by
  show '/' ∉ (splitOnChar '/' p.data).getLastD []
  exact not_mem_of_mem_splitOnChar '/' p.data _
    (getLastD_mem (splitOnChar_ne_nil '/' p.data) [])

theorem create_worDir_data (pkg tp : String) (htpne : tp.data ≠ [])
    (htpl : tp.data.getLast? ≠ some '/') :
    (create_worDir pkg tp).data = tp.data ++ '/' :: (lastSlashComponent pkg).data := by
  have hhead : ¬ ((lastSlashComponent pkg).data.head? = some '/') := by
    rcases h : (lastSlashComponent pkg).data with _ | ⟨c, cs⟩
    · simp
    · have hmem : c ∈ (lastSlashComponent pkg).data := by
        rw [h]
        exact List.mem_cons_self _ _
      have hcne : ¬ c = '/' := fun hc => lastSlashComponent_no_slash pkg (hc ▸ hmem)
      simp [hcne]
  unfold create_worDir pyJoin pyJoinL
  rw [if_neg hhead, if_neg (not_or.mpr ⟨htpne, htpl⟩)]

theorem worDir_delete_branch (pkg tmpRoot user rnd : String)
    (hr : '/' ∉ rnd.data) (hrne : rnd ≠ "") (worDirExists : Bool)
    (rmO : Except String Unit) :
    deleteTemporaryDirectoryTrace
        (some (create_worDir pkg (mkdtempResult tmpRoot user rnd))) worDirExists rmO =
      (if worDirExists then
        match rmO with
        | .ok _ => [Action.removeTree (mkdtempResult tmpRoot user rnd)]
        | .error s =>
          [Action.removeTree (mkdtempResult tmpRoot user rnd),
           Action.reportError
             (rmFailedMsg (create_worDir pkg (mkdtempResult tmpRoot user rnd)) s)]
       else []) := by
  have hne := mkdtempResult_ne_nil tmpRoot user rnd
  have hlast := mkdtempResult_getLast_ne tmpRoot user rnd hr hrne
  have hdata := create_worDir_data pkg (mkdtempResult tmpRoot user rnd) hne hlast
  have hB : ∀ c ∈ (lastSlashComponent pkg).data, (c != '/') = true := by
    intro c hc
    have hcc : ¬ c = '/' := fun h => lastSlashComponent_no_slash pkg (h ▸ hc)
    simpa using hcc
  have hsplit : (pySplitL (create_worDir pkg (mkdtempResult tmpRoot user rnd)).data).1 =
      (mkdtempResult tmpRoot user rnd).data := by
    rw [hdata,
      pySplitL_append _ _ hne hlast (mkdtempResult_has_non_slash tmpRoot user rnd) hB]
  have hmkeq : ((⟨(pySplitL (create_worDir pkg (mkdtempResult tmpRoot user rnd)).data).1⟩ :
      String)) = mkdtempResult tmpRoot user rnd := by
    rw [show ((⟨(pySplitL (create_worDir pkg (mkdtempResult tmpRoot user rnd)).data).1⟩ :
        String)) = ⟨(mkdtempResult tmpRoot user rnd).data⟩ from congrArg String.mk hsplit]
  simp only [deleteTemporaryDirectoryTrace, hmkeq]
  rw [if_neg (by
    intro hcontra
    have hmark : containsL "tmp-simulator-".data
        ((pySplitL (create_worDir pkg (mkdtempResult tmpRoot user rnd)).data).1) = true := by
      rw [hsplit]
      exact mkdtempResult_marker0 tmpRoot user rnd
    exact Bool.noConfusion (hmark.symm.trans hcontra))]

/-- C2: for every choice of constructor arguments, constructing a `Dymola`
or an `Optimica` object raises `TypeError`, because both subclass
`__init__` methods pass `outputFileList` and `logFileList` to
`_BaseSimulator.__init__`, which accepts only `modelName`,
`outputDirectory` and `packagePath`. -/
theorem claim_C2_constructor_raises_TypeError
    (modelName outputDirectory packagePath : String) :
    dymolaInit modelName outputDirectory packagePath = .error .typeError ∧
    optimicaInit modelName outputDirectory packagePath = .error .typeError :=
  ⟨rfl, rfl⟩

/-- C8: after `_BaseSimulator.__init__` completes, the settings dictionary
contains exactly `resultFile` (the last dot-separated component of the
model name), `t0 = 0`, `t1 = 1`, `eps = 1E-6` and `timeout = -1`. -/
theorem claim_C8_default_settings (modelName : String) :
    baseInitDict modelName =
      [("resultFile", .strV (lastDotComponent modelName)),
       ("t0", .intV 0), ("t1", .intV 1),
       ("eps", .floatV (1 / 1000000)), ("timeout", .intV (-1))] :=
  rfl

/-- C10: `setResultFile(s)` stores under `resultFile` exactly the substring
of `s` after its last dot (so `"aa.bb.cc"` is stored as `"cc"`), stores `s`
unchanged when `s` has no dot, and leaves every other settings key
untouched. -/
theorem claim_C10_setResultFile_stores_last_component (d : SimDict) (s : String) :
    dictGet (setResultFile d s) "resultFile" = some (.strV (afterLastDot s)) ∧
    ('.' ∉ s.data → dictGet (setResultFile d s) "resultFile" = some (.strV s)) ∧
    (∀ k, k ≠ "resultFile" → dictGet (setResultFile d s) k = dictGet d k) := by
  refine ⟨?_, ?_, ?_⟩
  · rw [setResultFile, dictGet_update_self, lastDotComponent_eq_afterLastDot]
  · intro h
    rw [setResultFile, dictGet_update_self, lastDotComponent_eq_afterLastDot,
      afterLastDot_of_not_mem s h]
  · intro k hk
    exact dictGet_update_other d "resultFile" k _ hk

theorem claim_C10_witness :
    dictGet (setResultFile [("t0", SimVal.intV 0)] "aa.bb.cc") "resultFile" =
      some (SimVal.strV "cc") ∧
    dictGet (setResultFile [("t0", SimVal.intV 0)] "aa.bb.cc") "t0" =
      some (SimVal.intV 0) := by
  constructor
  · rw [(claim_C10_setResultFile_stores_last_component
      [("t0", SimVal.intV 0)] "aa.bb.cc").1]
    rfl
  · exact (claim_C10_setResultFile_stores_last_component
      [("t0", SimVal.intV 0)] "aa.bb.cc").2.2 "t0" (by decide)

/-- C4 counterexample: on a path fresh from `_create_worDir` the working
directory itself does not yet exist — `tempfile.mkdtemp` only created its
parent — so the `os.path.exists(worDir)` guard of line 237 fails and
`_deleteTemporaryDirectory` removes nothing at all, against the claim's
`removing the parent temporary directory`. -/
theorem claim_C4_counterexample :
    deleteTemporaryDirectoryTrace
        (some (create_worDir "/home/u/Buildings" (mkdtempResult "/tmp" "usr" "x1y2")))
        false (.ok ()) = [] := by
  decide

/-- C4 as amended: `_create_worDir` returns the last component of the
package path joined under a fresh directory whose name contains
`tmp-simulator-` followed by the user name, and `_deleteTemporaryDirectory`
applied to any such path takes the deletion branch rather than the
invalid-directory error branch: it never reports the invalid-directory
error, and it removes the parent temporary directory exactly when the
working directory exists (as it does after `simulate()` has populated it),
merely reporting the failure when `shutil.rmtree` raises `IOError`.
`rnd` is the random suffix appended by `tempfile.mkdtemp` (nonempty and
separator-free). -/
theorem claim_C4_worDir_roundtrip (pkg tmpRoot user rnd : String)
    (hr : '/' ∉ rnd.data) (hrne : rnd ≠ "") (worDirExists : Bool)
    (rmO : Except String Unit) :
    create_worDir pkg (mkdtempResult tmpRoot user rnd) =
      pyJoin (mkdtempResult tmpRoot user rnd) (lastSlashComponent pkg) ∧
    containsL ("tmp-simulator-" ++ user).data (mkdtempResult tmpRoot user rnd).data = true ∧
    deleteTemporaryDirectoryTrace
        (some (create_worDir pkg (mkdtempResult tmpRoot user rnd))) worDirExists rmO =
      (if worDirExists then
        match rmO with
        | .ok _ => [Action.removeTree (mkdtempResult tmpRoot user rnd)]
        | .error s =>
          [Action.removeTree (mkdtempResult tmpRoot user rnd),
           Action.reportError
             (rmFailedMsg (create_worDir pkg (mkdtempResult tmpRoot user rnd)) s)]
       else []) ∧
    (worDirExists = true →
      Action.removeTree (mkdtempResult tmpRoot user rnd) ∈
        deleteTemporaryDirectoryTrace
          (some (create_worDir pkg (mkdtempResult tmpRoot user rnd))) worDirExists rmO) := by
  refine ⟨rfl, mkdtempResult_marker tmpRoot user rnd,
    worDir_delete_branch pkg tmpRoot user rnd hr hrne worDirExists rmO, ?_⟩
  intro hex
  subst hex
  rw [worDir_delete_branch pkg tmpRoot user rnd hr hrne true rmO]
  cases rmO <;> simp

theorem claim_C4_witness :
    Action.removeTree (mkdtempResult "/tmp" "usr" "x1y2") ∈
      deleteTemporaryDirectoryTrace
        (some (create_worDir "/home/u/Buildings" (mkdtempResult "/tmp" "usr" "x1y2")))
        true (.ok ()) :=
  (claim_C4_worDir_roundtrip "/home/u/Buildings" "/tmp" "usr" "x1y2"
    (by decide) (by decide) true (.ok ())).2.2.2 rfl

/-- C9: `_deleteTemporaryDirectory` only ever removes the parent directory
when that parent contains `tmp-simulator-`; when the parent does not
contain the marker it only writes an error message, whatever the state of
the file system and however `rmtree` would have gone, and on `None` it
returns with no effect at all. -/
theorem claim_C9_delete_guard (w : String) (worDirExists : Bool)
    (rmO : Except String Unit) :
    (deleteTemporaryDirectoryTrace none worDirExists rmO = []) ∧
    (∀ d, Action.removeTree d ∈ deleteTemporaryDirectoryTrace (some w) worDirExists rmO →
      containsL "tmp-simulator-".data d.data = true) ∧
    (containsL "tmp-simulator-".data (pySplitL w.data).1 = false →
      deleteTemporaryDirectoryTrace (some w) worDirExists rmO =
        [Action.reportError (invalidDirMsg ⟨(pySplitL w.data).1⟩)]) := by
  have hmk : ∀ l : List Char, ((⟨l⟩ : String)).data = l := fun _ => rfl
  refine ⟨rfl, ?_, ?_⟩
  · intro d hd
    simp only [deleteTemporaryDirectoryTrace, hmk] at hd
    by_cases hc : containsL "tmp-simulator-".data (pySplitL w.data).1 = false
    · rw [if_pos hc] at hd
      simp at hd
    · rw [if_neg hc] at hd
      have hdd : d = (⟨(pySplitL w.data).1⟩ : String) := by
        cases worDirExists with
        | false => simp at hd
        | true =>
          cases rmO with
          | error s =>
            simp at hd
            exact hd
          | ok u =>
            simp at hd
            exact hd
      rw [hdd, hmk]
      cases hb : containsL "tmp-simulator-".data (pySplitL w.data).1
      · exact absurd hb hc
      · rfl
  · intro h
    simp only [deleteTemporaryDirectoryTrace, hmk]
    rw [if_pos h]

theorem claim_C9_witness :
    deleteTemporaryDirectoryTrace (some "a/Pkg") true (.ok ()) =
      [Action.reportError (invalidDirMsg "a")] := by
  have h := (claim_C9_delete_guard "a/Pkg" true (.ok ())).2.2 (by decide)
  rw [h]
  rfl

theorem string_append_empty (s : String) : s ++ "" = s := by
  apply String.ext
  rw [String.data_append]
  exact List.append_nil _

theorem foldl_append_statements (xs : List String) :
    ∀ (init : String),
      xs.foldl (fun acc p => acc ++ p ++ "\n") init = init ++ joinStatements xs := by
  induction xs with
  | nil =>
    intro init
    rw [List.foldl_nil, joinStatements, string_append_empty]
  | cons x xs ih =>
    intro init
    rw [List.foldl_cons, ih, joinStatements]
    simp [String.append_assoc]

/-- C5: `_get_dymola_commands` produces, by string substitution, exactly:
the fixed header (remove the log file, open `package.mo`), each
pre-processing statement in insertion order, the `modelInstance`
assignment, then either `translateModel` (when `translate_only`) or the
`simulateModel` call substituting the stored `t0`, `t1`, `solver`, `eps`
and `resultFile` (plus `numberOfIntervals` exactly when that key is set),
then each post-processing statement in insertion order, then `savelog`,
and the final `exit()` if and only if `_exitSimulator` is true. -/
theorem claim_C5_dymola_commands_structure (st : DymolaState)
    (wd lf mn : String) (tOnly : Bool) :
    get_dymola_commands st wd lf mn tOnly =
      scriptHeader wd lf ++ joinStatements st.preProcessing ++
      ("modelInstance=" ++ mn ++ ";\n") ++
      (if tOnly then "translateModel(modelInstance);\n"
       else simulateModelCommand st.simulator) ++
      joinStatements st.postProcessing ++
      ("savelog(\"" ++ lf ++ "\");\n") ++
      (if st.exitSimulator then "Modelica.Utilities.System.exit();\n" else "") := by
  have h0 : ("" : String).data = [] := rfl
  unfold get_dymola_commands simulateModelCommand
  dsimp only
  rw [foldl_append_statements, foldl_append_statements]
  cases tOnly <;> cases hex : st.exitSimulator <;>
    (apply String.ext
     simp [String.data_append, List.append_assoc, h0])

/-- C3: `Dymola._check_simulation_errors` scrapes `simulator.log` in the
working directory; it raises `IOError` iff the scraper reports at least
one error, in which case exactly the reported error lines are written to
the reporter first; with no errors it returns normally with no effect. -/
theorem claim_C3_check_simulation_errors (worDir : String) (fs : String → String) :
    ((check_simulation_errors worDir fs).2 = .error .ioError ↔
      (get_errors_and_warnings (fs (pyJoin worDir "simulator.log")) "dymola").errors ≠ []) ∧
    ((get_errors_and_warnings (fs (pyJoin worDir "simulator.log")) "dymola").errors ≠ [] →
      (check_simulation_errors worDir fs).1 =
        Action.readFile (pyJoin worDir "simulator.log") ::
          ((get_errors_and_warnings (fs (pyJoin worDir "simulator.log")) "dymola").errors.map
            Action.reportError)) ∧
    ((get_errors_and_warnings (fs (pyJoin worDir "simulator.log")) "dymola").errors = [] →
      (check_simulation_errors worDir fs).1 =
          [Action.readFile (pyJoin worDir "simulator.log")] ∧
        (check_simulation_errors worDir fs).2 = .ok ()) := by
  by_cases h :
      (get_errors_and_warnings (fs (pyJoin worDir "simulator.log")) "dymola").errors = []
  · refine ⟨?_, ?_, ?_⟩
    · simp [check_simulation_errors, h]
    · intro hc
      exact absurd h hc
    · intro _
      constructor <;> simp [check_simulation_errors, h]
  · have hne : ¬ (get_errors_and_warnings
        (fs (pyJoin worDir "simulator.log")) "dymola").errors.isEmpty = true := by
      rw [List.isEmpty_iff]
      exact h
    refine ⟨?_, ?_, ?_⟩
    · simp [check_simulation_errors, hne, h]
    · intro _
      simp [check_simulation_errors, hne]
    · intro hc
      exact absurd hc h

theorem claim_C3_witness :
    (check_simulation_errors "/tmp/tmp-simulator-u-x/Lib" (fun _ => "")).1 =
        [Action.readFile (pyJoin "/tmp/tmp-simulator-u-x/Lib" "simulator.log")] ∧
      (check_simulation_errors "/tmp/tmp-simulator-u-x/Lib" (fun _ => "")).2 =
        Except.ok () :=
  (claim_C3_check_simulation_errors "/tmp/tmp-simulator-u-x/Lib" (fun _ => "")).2.2
    (by decide)

theorem simulationFailedMsg_contains_manual (w : String) (e : PyExc) :
    containsL "You need to delete the directory manually".data
      (simulationFailedMsg w e).data = true := by
  unfold simulationFailedMsg
  rw [String.data_append]
  rw [show (".\n   You need to delete the directory manually.\n" : String).data =
    ".\n   ".data ++ ("You need to delete the directory manually".data ++ ".\n".data)
    from rfl]
  rw [← List.append_assoc, ← List.append_assoc]
  exact containsL_append _ _ _

theorem check_simulation_errors_of_empty (worDir : String) (fs : String → String)
    (h : (get_errors_and_warnings (fs (pyJoin worDir "simulator.log")) "dymola").errors = []) :
    check_simulation_errors worDir fs =
      ([Action.readFile (pyJoin worDir "simulator.log")], .ok ()) := by
  simp [check_simulation_errors, h]

theorem check_simulation_errors_of_errors (worDir : String) (fs : String → String)
    (h : (get_errors_and_warnings (fs (pyJoin worDir "simulator.log")) "dymola").errors ≠ []) :
    check_simulation_errors worDir fs =
      ([Action.readFile (pyJoin worDir "simulator.log")] ++
        ((get_errors_and_warnings (fs (pyJoin worDir "simulator.log")) "dymola").errors.map
          Action.reportError), .error .ioError) := by
  have hne : ¬ (get_errors_and_warnings
      (fs (pyJoin worDir "simulator.log")) "dymola").errors.isEmpty = true := by
    rw [List.isEmpty_iff]
    exact h
  simp [check_simulation_errors, hne]

theorem optimica_check_of_empty (ost : OptimicaState) (worDir : String)
    (fs : String → String)
    (h : (get_errors_and_warnings
      (fs (pyJoin worDir (pyReplace ost.modelName "." "_" ++ "_log.txt")))
        "optimica").errors = []) :
    optimica_check_simulation_errors ost worDir fs =
      ([Action.readFile (pyJoin worDir (pyReplace ost.modelName "." "_" ++ "_log.txt"))],
        .ok ()) := by
  simp [optimica_check_simulation_errors, h]

theorem optimica_check_of_errors (ost : OptimicaState) (worDir : String)
    (fs : String → String)
    (h : (get_errors_and_warnings
      (fs (pyJoin worDir (pyReplace ost.modelName "." "_" ++ "_log.txt")))
        "optimica").errors ≠ []) :
    optimica_check_simulation_errors ost worDir fs =
      ([Action.readFile (pyJoin worDir (pyReplace ost.modelName "." "_" ++ "_log.txt"))] ++
        ((get_errors_and_warnings
          (fs (pyJoin worDir (pyReplace ost.modelName "." "_" ++ "_log.txt")))
            "optimica").errors.map Action.reportError), .error .ioError) := by
  have hne : ¬ (get_errors_and_warnings
      (fs (pyJoin worDir (pyReplace ost.modelName "." "_" ++ "_log.txt")))
        "optimica").errors.isEmpty = true := by
    rw [List.isEmpty_iff]
    exact h
  simp [optimica_check_simulation_errors, hne]

theorem dymolaSimulate_run_error (st : DymolaState) (tmpRoot user rnd : String)
    (fs : String → String) (copyO : Except PyExc Unit)
    (rmO : Except String Unit) (e : PyExc) :
    dymolaSimulate st tmpRoot user rnd (.error e) fs copyO rmO =
      (dymolaPreTrace st tmpRoot user rnd ++ dymolaTryHead st tmpRoot user rnd ++
        [.reportError (simulationFailedMsg (dymolaWorDir st tmpRoot user rnd) e)],
        .ok ()) := by
  simp [dymolaSimulate, List.append_assoc]

theorem dymolaSimulate_check_error (st : DymolaState) (tmpRoot user rnd : String)
    (fs : String → String) (copyO : Except PyExc Unit)
    (rmO : Except String Unit)
    (h : dymolaLogErrors st tmpRoot user rnd fs ≠ []) :
    dymolaSimulate st tmpRoot user rnd (.ok ()) fs copyO rmO =
      (dymolaPreTrace st tmpRoot user rnd ++ dymolaTryHead st tmpRoot user rnd ++
        [.readFile (pyJoin (dymolaWorDir st tmpRoot user rnd) "simulator.log")] ++
        (dymolaLogErrors st tmpRoot user rnd fs).map Action.reportError ++
        [.reportError (simulationFailedMsg (dymolaWorDir st tmpRoot user rnd) .ioError)],
        .ok ()) := by
  have hc := check_simulation_errors_of_errors (dymolaWorDir st tmpRoot user rnd) fs
    (by simpa [dymolaLogErrors] using h)
  simp [dymolaSimulate, hc, dymolaLogErrors, List.append_assoc]

theorem dymolaSimulate_copy_error (st : DymolaState) (tmpRoot user rnd : String)
    (fs : String → String) (rmO : Except String Unit) (e : PyExc)
    (h : dymolaLogErrors st tmpRoot user rnd fs = []) :
    dymolaSimulate st tmpRoot user rnd (.ok ()) fs (.error e) rmO =
      (dymolaPreTrace st tmpRoot user rnd ++ dymolaTryHead st tmpRoot user rnd ++
        [.readFile (pyJoin (dymolaWorDir st tmpRoot user rnd) "simulator.log"),
         .copyNewFiles (dymolaWorDir st tmpRoot user rnd),
         .reportError (simulationFailedMsg (dymolaWorDir st tmpRoot user rnd) e)],
        .ok ()) := by
  have hc := check_simulation_errors_of_empty (dymolaWorDir st tmpRoot user rnd) fs
    (by simpa [dymolaLogErrors] using h)
  simp [dymolaSimulate, hc, List.append_assoc]

theorem dymolaSimulate_success (st : DymolaState) (tmpRoot user rnd : String)
    (fs : String → String) (rmO : Except String Unit)
    (h : dymolaLogErrors st tmpRoot user rnd fs = []) :
    dymolaSimulate st tmpRoot user rnd (.ok ()) fs (.ok ()) rmO =
      (dymolaPreTrace st tmpRoot user rnd ++ dymolaTryHead st tmpRoot user rnd ++
        [.readFile (pyJoin (dymolaWorDir st tmpRoot user rnd) "simulator.log"),
         .copyNewFiles (dymolaWorDir st tmpRoot user rnd)] ++
        deleteTemporaryDirectoryTrace (some (dymolaWorDir st tmpRoot user rnd)) true rmO,
        .ok ()) := by
  have hc := check_simulation_errors_of_empty (dymolaWorDir st tmpRoot user rnd) fs
    (by simpa [dymolaLogErrors] using h)
  simp [dymolaSimulate, hc, List.append_assoc]

theorem optimicaSimulate_run_error (ost : OptimicaState) (tmpRoot user rnd : String)
    (worDirExists : Bool) (modPath : Option String) (cwd : String)
    (fs : String → String) (copyO : Except PyExc Unit)
    (rmO : Except String Unit) (e : PyExc) :
    optimicaSimulate ost tmpRoot user rnd worDirExists modPath cwd (.error e) fs copyO rmO =
      (optimicaPreTrace ost tmpRoot user rnd worDirExists modPath cwd ++
        [.runSubprocess ["jm_ipython.sh", optimicaScriptFile ost tmpRoot user rnd],
         .reportError (simulationFailedMsg (optimicaWorDir ost tmpRoot user rnd) e)],
        .ok ()) := by
  simp [optimicaSimulate, List.append_assoc]

theorem optimicaSimulate_check_error (ost : OptimicaState) (tmpRoot user rnd : String)
    (worDirExists : Bool) (modPath : Option String) (cwd : String)
    (fs : String → String) (copyO : Except PyExc Unit)
    (rmO : Except String Unit)
    (h : optimicaLogErrors ost tmpRoot user rnd fs ≠ []) :
    optimicaSimulate ost tmpRoot user rnd worDirExists modPath cwd (.ok ()) fs copyO rmO =
      (optimicaPreTrace ost tmpRoot user rnd worDirExists modPath cwd ++
        [.runSubprocess ["jm_ipython.sh", optimicaScriptFile ost tmpRoot user rnd],
         .readFile (pyJoin (optimicaWorDir ost tmpRoot user rnd)
           (pyReplace ost.modelName "." "_" ++ "_log.txt"))] ++
        (optimicaLogErrors ost tmpRoot user rnd fs).map Action.reportError ++
        [.reportError (simulationFailedMsg (optimicaWorDir ost tmpRoot user rnd) .ioError)],
        .ok ()) := by
  have hc := optimica_check_of_errors ost (optimicaWorDir ost tmpRoot user rnd) fs
    (by simpa [optimicaLogErrors] using h)
  simp [optimicaSimulate, hc, optimicaLogErrors, List.append_assoc]

theorem optimicaSimulate_copy_error (ost : OptimicaState) (tmpRoot user rnd : String)
    (worDirExists : Bool) (modPath : Option String) (cwd : String)
    (fs : String → String) (rmO : Except String Unit) (e : PyExc)
    (h : optimicaLogErrors ost tmpRoot user rnd fs = []) :
    optimicaSimulate ost tmpRoot user rnd worDirExists modPath cwd
        (.ok ()) fs (.error e) rmO =
      (optimicaPreTrace ost tmpRoot user rnd worDirExists modPath cwd ++
        [.runSubprocess ["jm_ipython.sh", optimicaScriptFile ost tmpRoot user rnd],
         .readFile (pyJoin (optimicaWorDir ost tmpRoot user rnd)
           (pyReplace ost.modelName "." "_" ++ "_log.txt")),
         .copyNewFiles (optimicaWorDir ost tmpRoot user rnd),
         .reportError (simulationFailedMsg (optimicaWorDir ost tmpRoot user rnd) e)],
        .ok ()) := by
  have hc := optimica_check_of_empty ost (optimicaWorDir ost tmpRoot user rnd) fs
    (by simpa [optimicaLogErrors] using h)
  simp [optimicaSimulate, hc, List.append_assoc]

theorem optimicaSimulate_success (ost : OptimicaState) (tmpRoot user rnd : String)
    (worDirExists : Bool) (modPath : Option String) (cwd : String)
    (fs : String → String) (rmO : Except String Unit)
    (h : optimicaLogErrors ost tmpRoot user rnd fs = []) :
    optimicaSimulate ost tmpRoot user rnd worDirExists modPath cwd
        (.ok ()) fs (.ok ()) rmO =
      (optimicaPreTrace ost tmpRoot user rnd worDirExists modPath cwd ++
        [.runSubprocess ["jm_ipython.sh", optimicaScriptFile ost tmpRoot user rnd],
         .readFile (pyJoin (optimicaWorDir ost tmpRoot user rnd)
           (pyReplace ost.modelName "." "_" ++ "_log.txt")),
         .copyNewFiles (optimicaWorDir ost tmpRoot user rnd)] ++
        deleteTemporaryDirectoryTrace (some (optimicaWorDir ost tmpRoot user rnd)) true rmO,
        .ok ()) := by
  have hc := optimica_check_of_empty ost (optimicaWorDir ost tmpRoot user rnd) fs
    (by simpa [optimicaLogErrors] using h)
  simp [optimicaSimulate, hc, List.append_assoc]

theorem dymolaSimulate_snd (st : DymolaState) (tmpRoot user rnd : String)
    (runO : Except PyExc Unit) (fs : String → String) (copyO : Except PyExc Unit)
    (rmO : Except String Unit) :
    (dymolaSimulate st tmpRoot user rnd runO fs copyO rmO).2 = .ok () := by
  simp only [dymolaSimulate]
  rcases hc : check_simulation_errors (dymolaWorDir st tmpRoot user rnd) fs with ⟨ctr, cres⟩
  cases runO with
  | error e => rfl
  | ok u =>
    cases cres with
    | error e => rfl
    | ok v =>
      cases copyO with
      | error e => rfl
      | ok w => rfl

theorem optimicaSimulate_snd (ost : OptimicaState) (tmpRoot user rnd : String)
    (worDirExists : Bool) (modPath : Option String) (cwd : String)
    (runO : Except PyExc Unit) (fs : String → String) (copyO : Except PyExc Unit)
    (rmO : Except String Unit) :
    (optimicaSimulate ost tmpRoot user rnd worDirExists modPath cwd runO fs copyO rmO).2 =
      .ok () := by
  simp only [optimicaSimulate]
  rcases hc : optimica_check_simulation_errors ost (optimicaWorDir ost tmpRoot user rnd) fs
    with ⟨ctr, cres⟩
  cases runO with
  | error e => rfl
  | ok u =>
    cases cres with
    | error e => rfl
    | ok v =>
      cases copyO with
      | error e => rfl
      | ok w => rfl

theorem removeTree_mem_delete_branch (pkg tmpRoot user rnd : String)
    (hr : '/' ∉ rnd.data) (hrne : rnd ≠ "") (rmO : Except String Unit) :
    Action.removeTree (mkdtempResult tmpRoot user rnd) ∈
      deleteTemporaryDirectoryTrace
        (some (create_worDir pkg (mkdtempResult tmpRoot user rnd))) true rmO := by
  rw [worDir_delete_branch pkg tmpRoot user rnd hr hrne true rmO]
  cases rmO <;> simp

/-- C6: on a fully successful run both `simulate()` methods delete the
temporary directory; when the external run, the log-error check or the
output-file copy fails, `simulate()` catches the exception, reports the
`You need to delete the directory manually` message, performs no removal,
and still returns normally. -/
theorem claim_C6_cleanup_on_success_only
    (st : DymolaState) (ost : OptimicaState) (tmpRoot user rnd : String)
    (worDirExists : Bool) (modPath : Option String) (cwd : String)
    (runO copyO runP copyP : Except PyExc Unit) (fsD fsO : String → String)
    (rmD rmP : Except String Unit)
    (hr : '/' ∉ rnd.data) (hrne : rnd ≠ "") :
    ((dymolaSimulate st tmpRoot user rnd runO fsD copyO rmD).2 = .ok ()) ∧
    ((optimicaSimulate ost tmpRoot user rnd worDirExists modPath cwd
        runP fsO copyP rmP).2 = .ok ()) ∧
    (runO = .ok () → dymolaLogErrors st tmpRoot user rnd fsD = [] → copyO = .ok () →
      Action.removeTree (mkdtempResult tmpRoot user rnd) ∈
        (dymolaSimulate st tmpRoot user rnd runO fsD copyO rmD).1) ∧
    (∀ e, runO = .error e →
      (∀ d, Action.removeTree d ∉ (dymolaSimulate st tmpRoot user rnd runO fsD copyO rmD).1) ∧
      Action.reportError (simulationFailedMsg (dymolaWorDir st tmpRoot user rnd) e) ∈
        (dymolaSimulate st tmpRoot user rnd runO fsD copyO rmD).1) ∧
    (runO = .ok () → dymolaLogErrors st tmpRoot user rnd fsD ≠ [] →
      (∀ d, Action.removeTree d ∉ (dymolaSimulate st tmpRoot user rnd runO fsD copyO rmD).1) ∧
      Action.reportError
          (simulationFailedMsg (dymolaWorDir st tmpRoot user rnd) .ioError) ∈
        (dymolaSimulate st tmpRoot user rnd runO fsD copyO rmD).1) ∧
    (∀ e, runO = .ok () → dymolaLogErrors st tmpRoot user rnd fsD = [] →
      copyO = .error e →
      (∀ d, Action.removeTree d ∉ (dymolaSimulate st tmpRoot user rnd runO fsD copyO rmD).1) ∧
      Action.reportError (simulationFailedMsg (dymolaWorDir st tmpRoot user rnd) e) ∈
        (dymolaSimulate st tmpRoot user rnd runO fsD copyO rmD).1) ∧
    (runP = .ok () → optimicaLogErrors ost tmpRoot user rnd fsO = [] → copyP = .ok () →
      Action.removeTree (mkdtempResult tmpRoot user rnd) ∈
        (optimicaSimulate ost tmpRoot user rnd worDirExists modPath cwd
          runP fsO copyP rmP).1) ∧
    (∀ e, runP = .error e →
      (∀ d, Action.removeTree d ∉
        (optimicaSimulate ost tmpRoot user rnd worDirExists modPath cwd
          runP fsO copyP rmP).1) ∧
      Action.reportError (simulationFailedMsg (optimicaWorDir ost tmpRoot user rnd) e) ∈
        (optimicaSimulate ost tmpRoot user rnd worDirExists modPath cwd
          runP fsO copyP rmP).1) ∧
    (runP = .ok () → optimicaLogErrors ost tmpRoot user rnd fsO ≠ [] →
      (∀ d, Action.removeTree d ∉
        (optimicaSimulate ost tmpRoot user rnd worDirExists modPath cwd
          runP fsO copyP rmP).1) ∧
      Action.reportError
          (simulationFailedMsg (optimicaWorDir ost tmpRoot user rnd) .ioError) ∈
        (optimicaSimulate ost tmpRoot user rnd worDirExists modPath cwd
          runP fsO copyP rmP).1) ∧
    (∀ e, runP = .ok () → optimicaLogErrors ost tmpRoot user rnd fsO = [] →
      copyP = .error e →
      (∀ d, Action.removeTree d ∉
        (optimicaSimulate ost tmpRoot user rnd worDirExists modPath cwd
          runP fsO copyP rmP).1) ∧
      Action.reportError (simulationFailedMsg (optimicaWorDir ost tmpRoot user rnd) e) ∈
        (optimicaSimulate ost tmpRoot user rnd worDirExists modPath cwd
          runP fsO copyP rmP).1) ∧
    (∀ w e, containsL "You need to delete the directory manually".data
      (simulationFailedMsg w e).data = true) := by
  have hdelD : Action.removeTree (mkdtempResult tmpRoot user rnd) ∈
      deleteTemporaryDirectoryTrace (some (dymolaWorDir st tmpRoot user rnd)) true rmD := by
    unfold dymolaWorDir
    exact removeTree_mem_delete_branch st.packagePath tmpRoot user rnd hr hrne rmD
  have hdelO : Action.removeTree (mkdtempResult tmpRoot user rnd) ∈
      deleteTemporaryDirectoryTrace (some (optimicaWorDir ost tmpRoot user rnd)) true rmP := by
    unfold optimicaWorDir
    exact removeTree_mem_delete_branch ost.packagePath tmpRoot user rnd hr hrne rmP
  refine ⟨dymolaSimulate_snd st tmpRoot user rnd runO fsD copyO rmD,
    optimicaSimulate_snd ost tmpRoot user rnd worDirExists modPath cwd runP fsO copyP rmP,
    ?_, ?_, ?_, ?_, ?_, ?_, ?_, ?_,
    fun w e => simulationFailedMsg_contains_manual w e⟩
  · intro h1 h2 h3
    subst h1
    subst h3
    rw [dymolaSimulate_success st tmpRoot user rnd fsD rmD h2]
    simp only [List.mem_append]
    exact Or.inr hdelD
  · intro e h1
    subst h1
    rw [dymolaSimulate_run_error st tmpRoot user rnd fsD copyO rmD e]
    constructor
    · intro d hd
      simp [dymolaPreTrace, dymolaTryHead] at hd
    · simp
  · intro h1 h2
    subst h1
    rw [dymolaSimulate_check_error st tmpRoot user rnd fsD copyO rmD h2]
    constructor
    · intro d hd
      simp [dymolaPreTrace, dymolaTryHead] at hd
    · simp
  · intro e h1 h2 h3
    subst h1
    subst h3
    rw [dymolaSimulate_copy_error st tmpRoot user rnd fsD rmD e h2]
    constructor
    · intro d hd
      simp [dymolaPreTrace, dymolaTryHead] at hd
    · simp
  · intro h1 h2 h3
    subst h1
    subst h3
    rw [optimicaSimulate_success ost tmpRoot user rnd worDirExists modPath cwd fsO rmP h2]
    simp only [List.mem_append]
    exact Or.inr hdelO
  · intro e h1
    subst h1
    rw [optimicaSimulate_run_error ost tmpRoot user rnd worDirExists modPath cwd
      fsO copyP rmP e]
    constructor
    · intro d hd
      cases worDirExists <;> simp [optimicaPreTrace] at hd
    · simp
  · intro h1 h2
    subst h1
    rw [optimicaSimulate_check_error ost tmpRoot user rnd worDirExists modPath cwd
      fsO copyP rmP h2]
    constructor
    · intro d hd
      cases worDirExists <;> simp [optimicaPreTrace] at hd
    · simp
  · intro e h1 h2 h3
    subst h1
    subst h3
    rw [optimicaSimulate_copy_error ost tmpRoot user rnd worDirExists modPath cwd
      fsO rmP e h2]
    constructor
    · intro d hd
      cases worDirExists <;> simp [optimicaPreTrace] at hd
    · simp

theorem deleteTrace_no_run (w : Option String) (x : Bool) (r : Except String Unit)
    (c : List String) :
    Action.runSubprocess c ∉ deleteTemporaryDirectoryTrace w x r := by
  intro hc
  cases w with
  | none => simp [deleteTemporaryDirectoryTrace] at hc
  | some y =>
    cases x <;> cases r <;>
      simp only [deleteTemporaryDirectoryTrace] at hc <;>
      split at hc <;> simp at hc

theorem deleteTrace_no_copy (w : Option String) (x : Bool) (r : Except String Unit)
    (s d : String) :
    Action.copyTree s d ∉ deleteTemporaryDirectoryTrace w x r := by
  intro hc
  cases w with
  | none => simp [deleteTemporaryDirectoryTrace] at hc
  | some y =>
    cases x <;> cases r <;>
      simp only [deleteTemporaryDirectoryTrace] at hc <;>
      split at hc <;> simp at hc

theorem pyJoin_ne_empty_of_left (a b : String) (ha : a ≠ "") : pyJoin a b ≠ "" := by
  have had : a.data ≠ [] := (string_ne_empty_iff a).mp ha
  rw [string_ne_empty_iff]
  show pyJoinL a.data b.data ≠ []
  unfold pyJoinL
  split
  · intro hc
    rename_i hh
    rw [hc] at hh
    simp at hh
  · split
    · simp [had]
    · simp

theorem pyJoin_data_cases (a b : String) (hb : ¬ b.data.head? = some '/') :
    pyJoin a b = (⟨a.data ++ b.data⟩ : String) ∨
    pyJoin a b = (⟨a.data ++ '/' :: b.data⟩ : String) := by
  unfold pyJoin pyJoinL
  rw [if_neg hb]
  by_cases hc : a.data = [] ∨ a.data.getLast? = some '/'
  · rw [if_pos hc]
    left
    rfl
  · rw [if_neg hc]
    right
    rfl

theorem replaceAll_head_dot (W : String) (suf : List Char) (hW : W.data ≠ []) :
    ∃ t, replaceAllL W.data ".".data (W.data ++ suf) = '.' :: t := by
  rw [replaceAllL_append_self W.data ".".data hW suf]
  exact ⟨replaceAllL W.data ".".data suf, rfl⟩

theorem dymolaWorDir_data_ne_nil (st : DymolaState) (tmpRoot user rnd : String) :
    (dymolaWorDir st tmpRoot user rnd).data ≠ [] := by
  rw [← string_ne_empty_iff]
  unfold dymolaWorDir create_worDir
  apply pyJoin_ne_empty_of_left
  rw [string_ne_empty_iff]
  exact mkdtempResult_ne_nil tmpRoot user rnd

theorem dymola_mo_fil_head (st : DymolaState) (tmpRoot user rnd : String) :
    ∃ t, (pyReplace (dymolaRunScript st tmpRoot user rnd)
      (dymolaWorDir st tmpRoot user rnd) ".").data = '.' :: t := by
  have hWne := dymolaWorDir_data_ne_nil st tmpRoot user rnd
  have hb : ¬ (("run.mos" : String).data.head? = some '/') := by decide
  unfold dymolaRunScript
  rcases pyJoin_data_cases (dymolaWorDir st tmpRoot user rnd) "run.mos" hb with h | h
  · rw [h]
    exact replaceAll_head_dot (dymolaWorDir st tmpRoot user rnd) ("run.mos".data) hWne
  · rw [h]
    exact replaceAll_head_dot (dymolaWorDir st tmpRoot user rnd)
      ('/' :: "run.mos".data) hWne

theorem dymola_mo_fil_ne_nowindow (st : DymolaState) (tmpRoot user rnd : String) :
    ¬ (("/nowindow" : String) = pyReplace (dymolaRunScript st tmpRoot user rnd)
      (dymolaWorDir st tmpRoot user rnd) ".") := by
  intro hc
  obtain ⟨t, ht⟩ := dymola_mo_fil_head st tmpRoot user rnd
  have hh : (("/nowindow" : String).data).head? = some '.' := by
    rw [congrArg String.data hc, ht]
    rfl
  exact absurd hh (by decide)

theorem dymola_runs_eq (st : DymolaState) (tmpRoot user rnd : String)
    (runO : Except PyExc Unit) (fs : String → String) (copyO : Except PyExc Unit)
    (rmO : Except String Unit) :
    ∀ c, Action.runSubprocess c ∈ (dymolaSimulate st tmpRoot user rnd runO fs copyO rmO).1 →
      c = dymola_runSimulation_cmd st.showGUI (dymolaRunScript st tmpRoot user rnd)
        (dymolaWorDir st tmpRoot user rnd) := by
  intro c hc
  cases runO with
  | error e =>
    rw [dymolaSimulate_run_error] at hc
    simp [dymolaPreTrace, dymolaTryHead] at hc
    exact hc
  | ok u =>
    cases u
    by_cases h : dymolaLogErrors st tmpRoot user rnd fs = []
    · cases copyO with
      | error e =>
        rw [dymolaSimulate_copy_error st tmpRoot user rnd fs rmO e h] at hc
        simp [dymolaPreTrace, dymolaTryHead] at hc
        exact hc
      | ok v =>
        cases v
        rw [dymolaSimulate_success st tmpRoot user rnd fs rmO h] at hc
        simp [dymolaPreTrace, dymolaTryHead] at hc
        rcases hc with hc | hc
        · exact hc
        · exact absurd hc (deleteTrace_no_run _ _ _ c)
    · rw [dymolaSimulate_check_error st tmpRoot user rnd fs copyO rmO h] at hc
      simp [dymolaPreTrace, dymolaTryHead] at hc
      exact hc

theorem optimica_runs_eq (ost : OptimicaState) (tmpRoot user rnd : String)
    (worDirExists : Bool) (modPath : Option String) (cwd : String)
    (runO : Except PyExc Unit) (fs : String → String) (copyO : Except PyExc Unit)
    (rmO : Except String Unit) :
    ∀ c, Action.runSubprocess c ∈
        (optimicaSimulate ost tmpRoot user rnd worDirExists modPath cwd runO fs copyO rmO).1 →
      c = ["jm_ipython.sh", optimicaScriptFile ost tmpRoot user rnd] := by
  intro c hc
  cases runO with
  | error e =>
    rw [optimicaSimulate_run_error] at hc
    cases worDirExists <;> simp [optimicaPreTrace] at hc <;> exact hc
  | ok u =>
    cases u
    by_cases h : optimicaLogErrors ost tmpRoot user rnd fs = []
    · cases copyO with
      | error e =>
        rw [optimicaSimulate_copy_error ost tmpRoot user rnd worDirExists modPath cwd
          fs rmO e h] at hc
        cases worDirExists <;> simp [optimicaPreTrace] at hc <;> exact hc
      | ok v =>
        cases v
        rw [optimicaSimulate_success ost tmpRoot user rnd worDirExists modPath cwd
          fs rmO h] at hc
        cases worDirExists <;> simp [optimicaPreTrace] at hc <;>
          (rcases hc with hc | hc
           · exact hc
           · exact absurd hc (deleteTrace_no_run _ _ _ c))
    · rw [optimicaSimulate_check_error ost tmpRoot user rnd worDirExists modPath cwd
        fs copyO rmO h] at hc
      cases worDirExists <;> simp [optimicaPreTrace] at hc <;> exact hc

/-- C7: in both `simulate()` traces the only executable ever invoked is the
fixed external binary: every subprocess command of a Dymola run is exactly
the list built by `Dymola._runSimulation` — head `"dymola"`, then the
script path with the working-directory prefix replaced by `"."`, plus
`"/nowindow"` if and only if the GUI is disabled — and every subprocess
command of an Optimica run is exactly
`["jm_ipython.sh", <generated script>]`. -/
theorem claim_C7_external_binaries (st : DymolaState) (ost : OptimicaState)
    (tmpRoot user rnd : String) (worDirExists : Bool) (modPath : Option String)
    (cwd : String) (runO copyO runP copyP : Except PyExc Unit)
    (fsD fsO : String → String) (rmD rmP : Except String Unit) :
    (∀ c, Action.runSubprocess c ∈ (dymolaSimulate st tmpRoot user rnd runO fsD copyO rmD).1 →
      c = dymola_runSimulation_cmd st.showGUI (dymolaRunScript st tmpRoot user rnd)
          (dymolaWorDir st tmpRoot user rnd) ∧
      c.head? = some "dymola" ∧
      (("/nowindow" : String) ∈ c ↔ st.showGUI = false)) ∧
    (∀ c, Action.runSubprocess c ∈
        (optimicaSimulate ost tmpRoot user rnd worDirExists modPath cwd
          runP fsO copyP rmP).1 →
      c = ["jm_ipython.sh", optimicaScriptFile ost tmpRoot user rnd] ∧
      c.head? = some "jm_ipython.sh") := by
  constructor
  · intro c hc
    have heq := dymola_runs_eq st tmpRoot user rnd runO fsD copyO rmD c hc
    subst heq
    refine ⟨rfl, ?_, ?_⟩
    · cases st.showGUI <;> rfl
    · cases hg : st.showGUI with
      | true =>
        simp only [dymola_runSimulation_cmd, hg, if_pos]
        constructor
        · intro hmem
          rcases List.mem_cons.mp hmem with h | h
          · exact absurd h (by decide)
          · rcases List.mem_cons.mp h with h2 | h2
            · exact absurd h2 (dymola_mo_fil_ne_nowindow st tmpRoot user rnd)
            · simp at h2
        · intro hfalse
          cases hfalse
      | false =>
        simp [dymola_runSimulation_cmd, hg]
  · intro c hc
    have heq := optimica_runs_eq ost tmpRoot user rnd worDirExists modPath cwd
      runP fsO copyP rmP c hc
    subst heq
    exact ⟨rfl, rfl⟩

theorem dymolaSimulate_fst_decomp (st : DymolaState) (tmpRoot user rnd : String)
    (runO : Except PyExc Unit) (fs : String → String) (copyO : Except PyExc Unit)
    (rmO : Except String Unit) :
    ∃ rest, (dymolaSimulate st tmpRoot user rnd runO fs copyO rmO).1 =
      dymolaPreTrace st tmpRoot user rnd ++ (dymolaTryHead st tmpRoot user rnd ++ rest) := by
  cases runO with
  | error e =>
    refine ⟨[.reportError (simulationFailedMsg (dymolaWorDir st tmpRoot user rnd) e)], ?_⟩
    rw [dymolaSimulate_run_error]
    simp [List.append_assoc]
  | ok u =>
    cases u
    by_cases h : dymolaLogErrors st tmpRoot user rnd fs = []
    · cases copyO with
      | error e =>
        refine ⟨[.readFile (pyJoin (dymolaWorDir st tmpRoot user rnd) "simulator.log"),
          .copyNewFiles (dymolaWorDir st tmpRoot user rnd),
          .reportError (simulationFailedMsg (dymolaWorDir st tmpRoot user rnd) e)], ?_⟩
        rw [dymolaSimulate_copy_error st tmpRoot user rnd fs rmO e h]
        simp [List.append_assoc]
      | ok v =>
        cases v
        refine ⟨[.readFile (pyJoin (dymolaWorDir st tmpRoot user rnd) "simulator.log"),
          .copyNewFiles (dymolaWorDir st tmpRoot user rnd)] ++
          deleteTemporaryDirectoryTrace (some (dymolaWorDir st tmpRoot user rnd)) true rmO,
          ?_⟩
        rw [dymolaSimulate_success st tmpRoot user rnd fs rmO h]
        simp [List.append_assoc]
    · refine ⟨[.readFile (pyJoin (dymolaWorDir st tmpRoot user rnd) "simulator.log")] ++
        (dymolaLogErrors st tmpRoot user rnd fs).map Action.reportError ++
        [.reportError (simulationFailedMsg (dymolaWorDir st tmpRoot user rnd) .ioError)], ?_⟩
      rw [dymolaSimulate_check_error st tmpRoot user rnd fs copyO rmO h]
      simp [List.append_assoc]

theorem optimicaSimulate_no_copy (ost : OptimicaState) (tmpRoot user rnd : String)
    (worDirExists : Bool) (modPath : Option String) (cwd : String)
    (runO : Except PyExc Unit) (fs : String → String) (copyO : Except PyExc Unit)
    (rmO : Except String Unit) :
    ∀ s d, Action.copyTree s d ∉
      (optimicaSimulate ost tmpRoot user rnd worDirExists modPath cwd runO fs copyO rmO).1 := by
  intro s d hc
  cases runO with
  | error e =>
    rw [optimicaSimulate_run_error] at hc
    cases worDirExists <;> simp [optimicaPreTrace] at hc
  | ok u =>
    cases u
    by_cases h : optimicaLogErrors ost tmpRoot user rnd fs = []
    · cases copyO with
      | error e =>
        rw [optimicaSimulate_copy_error ost tmpRoot user rnd worDirExists modPath cwd
          fs rmO e h] at hc
        cases worDirExists <;> simp [optimicaPreTrace] at hc
      | ok v =>
        cases v
        rw [optimicaSimulate_success ost tmpRoot user rnd worDirExists modPath cwd
          fs rmO h] at hc
        cases worDirExists <;> simp [optimicaPreTrace] at hc <;>
          exact absurd hc (deleteTrace_no_copy _ _ _ s d)
    · rw [optimicaSimulate_check_error ost tmpRoot user rnd worDirExists modPath cwd
        fs copyO rmO h] at hc
      cases worDirExists <;> simp [optimicaPreTrace] at hc

/-- C1 (failing side proved on the code): `Dymola.simulate` copies the
package directory into the fresh working directory before the external
simulator is invoked, but `Optimica.simulate` performs no copy action at
all (its `shutil.copytree` call is commented out, Optimica.py lines
94-95), contradicting the claim, the spec and the method's own docstring
step 2. -/
theorem claim_C1_optimica_never_copies_package (st : DymolaState) (ost : OptimicaState)
    (tmpRoot user rnd : String) (worDirExists : Bool) (modPath : Option String)
    (cwd : String) (runO copyO runP copyP : Except PyExc Unit)
    (fsD fsO : String → String) (rmD rmP : Except String Unit) :
    (∃ l1 l2, (dymolaSimulate st tmpRoot user rnd runO fsD copyO rmD).1 =
        l1 ++ Action.copyTree st.packagePath (dymolaWorDir st tmpRoot user rnd) :: l2 ∧
      l1.all (fun a => !a.isRun) = true ∧
      l2.any Action.isRun = true) ∧
    ((optimicaSimulate ost tmpRoot user rnd worDirExists modPath cwd
        runP fsO copyP rmP).1.all (fun a => !a.isCopyTree) = true) := by
  constructor
  · obtain ⟨rest, hrest⟩ := dymolaSimulate_fst_decomp st tmpRoot user rnd runO fsD copyO rmD
    refine ⟨[.deleteFiles dymolaOutputFileList,
      .deleteFiles [resultFileString st.simulator ++ "_result.mat"],
      .makeTempDir (mkdtempResult tmpRoot user rnd)],
      dymolaTryHead st tmpRoot user rnd ++ rest, ?_, rfl, ?_⟩
    · rw [hrest]
      rfl
    · rw [dymolaTryHead]
      rfl
  · rw [List.all_eq_true]
    intro a ha
    cases a with
    | deleteFiles x => rfl
    | makeTempDir x => rfl
    | mkdirAct x => rfl
    | copyTree s d =>
      exact absurd ha (optimicaSimulate_no_copy ost tmpRoot user rnd worDirExists
        modPath cwd runP fsO copyP rmP s d)
    | writeFile x y => rfl
    | printMsg x => rfl
    | setEnv x y => rfl
    | runSubprocess x => rfl
    | readFile x => rfl
    | reportError x => rfl
    | copyNewFiles x => rfl
    | removeTree x => rfl

theorem claim_C6_witness :
    Action.removeTree (mkdtempResult "/tmp" "usr" "ab12") ∈
      (dymolaSimulate sampleDymolaState "/tmp" "usr" "ab12" (.ok ())
        (fun _ => "") (.ok ()) (.ok ())).1 :=
  (claim_C6_cleanup_on_success_only sampleDymolaState sampleOptimicaState
      "/tmp" "usr" "ab12" false none "/cwd" (.ok ()) (.ok ()) (.ok ()) (.ok ())
      (fun _ => "") (fun _ => "") (.ok ()) (.ok ()) (by decide) (by decide)).2.2.1
    rfl (by decide) rfl

theorem claim_C7_witness :
    (["jm_ipython.sh", optimicaScriptFile sampleOptimicaState "/tmp" "usr" "ab12"] :
      List String).head? = some "jm_ipython.sh" :=
  ((claim_C7_external_binaries sampleDymolaState sampleOptimicaState "/tmp" "usr" "ab12"
      false none "/cwd" (.ok ()) (.ok ()) (.ok ()) (.ok ())
      (fun _ => "") (fun _ => "") (.ok ()) (.ok ())).2
    ["jm_ipython.sh", optimicaScriptFile sampleOptimicaState "/tmp" "usr" "ab12"]
    (by
      rw [optimicaSimulate_success sampleOptimicaState "/tmp" "usr" "ab12" false none
        "/cwd" (fun _ => "") (.ok ()) (by decide)]
      simp)).2

end BuildingsPy
